import Mathlib

/-!
# dnscli: a verification development

A shallow embedding of `pkg/dns/client.go` and `cmd/root.go`.

* Go strings are byte sequences (`GoString`).
* A Go `error` is represented by its message; `nil` is `none`.
* The Alibaba Cloud DNS SDK handle is a record of three state-passing
  functions over an arbitrary remote state `σ`; every call the client issues
  and every line it prints is appended to a chronological trace.
* The Go standard-library functions the client calls (`net.ParseIP`,
  `IP.To4`, `string(byte)`, `fmt` verbs) are embedded after their Go
  implementation (Go 1.22, where `net.ParseIP` is `netip.ParseAddr` without
  zone).
* A Go call ends with its results or with a run-time panic (`Ret`): the
  `Body` of a successful lookup response and the elements of its record slice
  are pointers the client dereferences, and either may be nil. The SDK never
  returns a nil response together with a nil error.
-/

namespace Dnscli

/-! ## Go strings -/

/-- A Go string: an immutable sequence of bytes. -/
abbrev GoString := List (Fin 256)

/-- The byte with value `n mod 256` (Go's `byte(n)` / `uint8(n)`). -/
def byte (n : Nat) : Fin 256 := Fin.ofNat n

/-- Go's conversion `string(r)` of an integer code point to its UTF-8
encoding; surrogates and out-of-range values give U+FFFD. -/
def encodeRune (r : Nat) : GoString :=
  if r < 0x80 then [byte r]
  else if r < 0x800 then [byte (0xC0 + r / 64), byte (0x80 + r % 64)]
  else if (0xD800 ≤ r ∧ r < 0xE000) ∨ 0x10FFFF < r then [0xEF, 0xBF, 0xBD]
  else if r < 0x10000 then
    [byte (0xE0 + r / 4096), byte (0x80 + r / 64 % 64), byte (0x80 + r % 64)]
  else
    [byte (0xF0 + r / 262144), byte (0x80 + r / 4096 % 64), byte (0x80 + r / 64 % 64),
      byte (0x80 + r % 64)]

/-- The bytes of a source-code string literal (UTF-8). -/
def str (s : String) : GoString := s.toList.flatMap (fun c => encodeRune c.toNat)

/-- The table `first` of Go's `unicode/utf8` for a byte of `0x80` or more: the
length of the encoding the byte starts and the accepted range of the second
byte; `none` for a byte that starts no encoding (`0x80`-`0xC1`,
`0xF5`-`0xFF`). -/
def utf8First (c : Fin 256) : Option (Nat × Nat × Nat) :=
  if 0xC2 ≤ c.val ∧ c.val ≤ 0xDF then some (2, 0x80, 0xBF)
  else if c.val = 0xE0 then some (3, 0xA0, 0xBF)
  else if 0xE1 ≤ c.val ∧ c.val ≤ 0xEC then some (3, 0x80, 0xBF)
  else if c.val = 0xED then some (3, 0x80, 0x9F)
  else if 0xEE ≤ c.val ∧ c.val ≤ 0xEF then some (3, 0x80, 0xBF)
  else if c.val = 0xF0 then some (4, 0x90, 0xBF)
  else if 0xF1 ≤ c.val ∧ c.val ≤ 0xF3 then some (4, 0x80, 0xBF)
  else if c.val = 0xF4 then some (4, 0x80, 0x8F)
  else none

/-- Whether a byte is outside the continuation range `0x80`-`0xBF`. -/
def notContinuation (c : Fin 256) : Bool := decide (c.val < 0x80 ∨ 0xBF < c.val)

/-- One pass of the loop of Go's `utf8.RuneCountInString` on the unread text
`s` (not empty): the number of bytes the pass consumes. An ASCII byte, a byte
that starts no encoding, a truncated encoding and an encoding with a wrong
continuation byte each consume one byte. -/
def runeStep : GoString → Nat
  | [] => 0
  | c :: rest =>
    if c.val < 0x80 then 1
    else
      match utf8First c with
      | none => 1
      | some (size, lo, hi) =>
        if 1 + rest.length < size then 1
        else
          match rest with
          | [] => 1
          | c1 :: rest1 =>
            if c1.val < lo ∨ hi < c1.val then 1
            else if size = 2 then 2
            else
              match rest1 with
              | [] => 1
              | c2 :: rest2 =>
                if notContinuation c2 then 1
                else if size = 3 then 3
                else
                  match rest2 with
                  | [] => 1
                  | c3 :: _ => if notContinuation c3 then 1 else 4

/-- The loop of `utf8.RuneCountInString`: one rune per pass. Every pass
consumes at least one byte, so `len(s)` passes always suffice. -/
def runeCountLoop : Nat → GoString → Nat
  | 0, _ => 0
  | fuel + 1, s => if s = [] then 0 else 1 + runeCountLoop fuel (s.drop (runeStep s))

/-- Go's `utf8.RuneCountInString`, which `fmt` uses to pad: an invalid or
stray byte counts as one rune. -/
def runeCount (s : GoString) : Nat := runeCountLoop s.length s

/-- The `fmt` verb `%-Ns`: the string padded on the right with spaces to
`width` runes. -/
def padRight (width : Nat) (s : GoString) : GoString :=
  s ++ List.replicate (width - runeCount s) 32

/-- The `fmt` verb `%d` for a non-negative integer. -/
def fmtNat (n : Nat) : GoString := str (toString n)

/-- SDK helper `tea.StringValue`: the pointed-to string, or `""` for `nil`. -/
def StringValue (p : Option GoString) : GoString :=
  match p with
  | some s => s
  | none => []

/-! ## Go standard library: `net/netip.ParseAddr`, `net.ParseIP`, `IP.To4` -/

namespace netip

/-- The address family tag of a parsed `netip.Addr`: `z4`, or `z6` with its
zone (`""` for none). The zero `Addr` is never the result of a successful
parse and has no tag here. -/
inductive Z where
  | z4
  | z6 (zone : GoString)
deriving DecidableEq, Repr

/-- Go's `netip.Addr`: the 16-byte form of the address and the family tag. An
IPv4 address is stored in its IPv4-mapped 16-byte form with tag `z4`. -/
structure Addr where
  addr : List (Fin 256)
  z : Z
deriving DecidableEq, Repr

def Addr.Is4 (ip : Addr) : Bool := ip.z = Z.z4

def Addr.Is6 (ip : Addr) : Bool := ip.z ≠ Z.z4

def Addr.Zone (ip : Addr) : GoString :=
  match ip.z with
  | Z.z4 => []
  | Z.z6 zone => zone

def Addr.As16 (ip : Addr) : List (Fin 256) := ip.addr

/-- Go's `Addr.Is4In6`: an IPv6 address with the prefix `::ffff:0:0/96`. -/
def Addr.Is4In6 (ip : Addr) : Bool :=
  ip.Is6 && ip.addr.take 12 == [0, 0, 0, 0, 0, 0, 0, 0, 0, 0, 0xff, 0xff]

def AddrFrom4 (f : List (Fin 256)) : Addr :=
  { addr := [0, 0, 0, 0, 0, 0, 0, 0, 0, 0, 0xff, 0xff] ++ f, z := Z.z4 }

/-- The loop of `parseIPv4Fields`: `s` is the unread rest of the text, `prev`
the byte before it (`none` at index 0), `fields` the octets completed so far
(`pos = fields.length`), `val` and `digLen` as in the Go code. -/
def parseIPv4Loop : GoString → Option (Fin 256) → List (Fin 256) → Nat → Nat →
    Option (List (Fin 256))
  | [], _, fields, val, _ =>
    if fields.length < 3 then none else some (fields ++ [byte val])
  | c :: rest, prev, fields, val, digLen =>
    if 48 ≤ c.val ∧ c.val ≤ 57 then
      if digLen = 1 ∧ val = 0 then none
      else if val * 10 + c.val - 48 > 255 then none
      else parseIPv4Loop rest (some c) fields (val * 10 + c.val - 48) (digLen + 1)
    else if c = 46 then
      if prev = none ∨ rest = [] ∨ prev = some 46 then none
      else if fields.length = 3 then none
      else parseIPv4Loop rest (some c) (fields ++ [byte val]) 0 0
    else none

/-- Go's `parseIPv4Fields`: four decimal octets separated by dots. -/
def parseIPv4Fields (s : GoString) : Option (List (Fin 256)) :=
  parseIPv4Loop s none [] 0 0

def parseIPv4 (s : GoString) : Option Addr :=
  (parseIPv4Fields s).map AddrFrom4

/-- The value of a hexadecimal digit, `none` for any other byte. -/
def hexVal (c : Fin 256) : Option Nat :=
  if 48 ≤ c.val ∧ c.val ≤ 57 then some (c.val - 48)
  else if 97 ≤ c.val ∧ c.val ≤ 102 then some (c.val - 97 + 10)
  else if 65 ≤ c.val ∧ c.val ≤ 70 then some (c.val - 65 + 10)
  else none

/-- The inner loop of `parseIPv6` reading one group of hex digits: the number
of digits read and their value, or `none` when the group has more than four
digits or overflows 16 bits. -/
def hexLoop : GoString → Nat → Nat → Option (Nat × Nat)
  | [], off, acc => some (off, acc)
  | c :: rest, off, acc =>
    match hexVal c with
    | none => some (off, acc)
    | some d =>
      if off > 3 then none
      else if (acc * 16 + d) % 2 ^ 32 > 0xFFFF then none
      else hexLoop rest (off + 1) ((acc * 16 + d) % 2 ^ 32)

/-- The outer loop `for i < 16` of `parseIPv6`. `ip` holds the bytes written
so far (`i = ip.length`), `ellipsis` the position of `::` if seen. Each pass
writes at least two bytes, so eight passes always suffice. The result is the
unread text, the bytes and the ellipsis at loop exit; `none` is a parse
error. -/
def parseIPv6Loop : Nat → GoString → List (Fin 256) → Option Nat →
    Option (GoString × List (Fin 256) × Option Nat)
  | 0, s, ip, ellipsis => some (s, ip, ellipsis)
  | fuel + 1, s, ip, ellipsis =>
    if ¬ ip.length < 16 then some (s, ip, ellipsis)
    else
      match hexLoop s 0 0 with
      | none => none
      | some (off, acc) =>
        if off = 0 then none
        else if s.get? off = some 46 then
          if ellipsis = none ∧ ip.length ≠ 12 then none
          else if ip.length + 4 > 16 then none
          else
            match parseIPv4Fields s with
            | none => none
            | some ip4 => some ([], ip ++ ip4, ellipsis)
        else
          let ip1 := ip ++ [byte (acc / 256), byte acc]
          let s1 := s.drop off
          if s1 = [] then some (s1, ip1, ellipsis)
          else if s1.head? ≠ some 58 then none
          else if s1.length = 1 then none
          else
            let s2 := s1.drop 1
            if s2.head? = some 58 then
              if ellipsis ≠ none then none
              else if s2.drop 1 = [] then some ([], ip1, some ip1.length)
              else parseIPv6Loop fuel (s2.drop 1) ip1 (some ip1.length)
            else parseIPv6Loop fuel s2 ip1 ellipsis

/-- The tail of `parseIPv6`: the whole text must be used, and a short
address is completed by expanding the ellipsis with zero bytes. -/
def finishIPv6 (zone : GoString) (r : GoString × List (Fin 256) × Option Nat) : Option Addr :=
  if r.1 ≠ [] then none
  else if r.2.1.length < 16 then
    match r.2.2 with
    | none => none
    | some e =>
      some { addr := r.2.1.take e ++ List.replicate (16 - r.2.1.length) 0 ++ r.2.1.drop e,
             z := Z.z6 zone }
  else if r.2.2 ≠ none then none
  else some { addr := r.2.1, z := Z.z6 zone }

/-- Go's `parseIPv6`: split off the zone at the first `%`, take a leading
`::`, run the group loop and finish. -/
def parseIPv6 (input : GoString) : Option Addr :=
  let s := input.takeWhile (fun b => b ≠ 37)
  let zone := (input.dropWhile (fun b => b ≠ 37)).drop 1
  if (37 : Fin 256) ∈ input ∧ zone = [] then none
  else
    match s with
    | 58 :: 58 :: [] => some { addr := List.replicate 16 0, z := Z.z6 zone }
    | 58 :: 58 :: rest => (parseIPv6Loop 8 rest [] (some 0)).bind (finishIPv6 zone)
    | _ => (parseIPv6Loop 8 s [] none).bind (finishIPv6 zone)

/-- The dispatch loop of `ParseAddr`: the first `.`, `:` or `%` decides how
the whole text `s` is parsed. -/
def parseAddrScan (s : GoString) : GoString → Option Addr
  | [] => none
  | c :: rest =>
    if c = 46 then parseIPv4 s
    else if c = 58 then parseIPv6 s
    else if c = 37 then none
    else parseAddrScan s rest

/-- Go's `netip.ParseAddr`. -/
def ParseAddr (s : GoString) : Option Addr := parseAddrScan s s

end netip

namespace net

/-- Go's `net.ParseIP`: the 16-byte form of the address `netip.ParseAddr`
reads, or `nil` (`none`) when the text is not an address or carries a zone. -/
def ParseIP (s : GoString) : Option (List (Fin 256)) :=
  match netip.ParseAddr s with
  | none => none
  | some ip => if ip.Zone ≠ [] then none else some ip.As16

/-- Go's `IP.To4`: the 4-byte form of an IPv4 address (4 bytes, or 16 bytes
in IPv4-mapped form), `nil` (`none`) for any other address. -/
def To4 (ip : List (Fin 256)) : Option (List (Fin 256)) :=
  if ip.length = 4 then some ip
  else if ip.length = 16 ∧ (ip.take 10).all (fun b => b = 0) ∧
      ip.get? 10 = some 0xff ∧ ip.get? 11 = some 0xff then
    some ((ip.drop 12).take 4)
  else none

end net

deriving instance DecidableEq for Except

/-- How a Go call ends: it returns its results, or it panics (in this program
always by dereferencing a nil pointer). -/
inductive Ret (α : Type) where
  | value (a : α)
  | panic
deriving DecidableEq, Repr

/-! ## The SDK: `alidns` and `openapi` -/

namespace openapi

/-- The SDK configuration `openapi.Config` (the fields the client sets). -/
structure Config where
  AccessKeyId : Option GoString
  AccessKeySecret : Option GoString
  Endpoint : Option GoString
deriving DecidableEq, Repr

end openapi

namespace alidns

/-- Request of the lookup call; an unset pointer field is `none`. The field
`Type_` is the SDK's `Type`. -/
structure DescribeDomainRecordsRequest where
  DomainName : Option GoString
  RRKeyWord : Option GoString
  Type_ : Option GoString
  PageSize : Option Int
deriving DecidableEq, Repr

structure AddDomainRecordRequest where
  DomainName : Option GoString
  RR : Option GoString
  Type_ : Option GoString
  Value : Option GoString
deriving DecidableEq, Repr

structure DeleteDomainRecordRequest where
  RecordId : Option GoString
deriving DecidableEq, Repr

/-- One record of a lookup response (the fields the client reads); every
field is a string pointer. -/
structure Record where
  RecordId : Option GoString
  RR : Option GoString
  Type_ : Option GoString
  Value : Option GoString
  Status : Option GoString
deriving DecidableEq, Repr

/-- The `DomainRecords` part of a response body: `Record` is a slice of
record pointers; the slice may be `nil` and so may each element. -/
structure DomainRecords where
  Record : Option (List (Option Record))
deriving DecidableEq, Repr

/-- The response body; `DomainRecords` may be `nil`. -/
structure ResponseBody where
  DomainRecords : Option DomainRecords
deriving DecidableEq, Repr

/-- A lookup response; `Body` is a pointer and may be `nil` (the SDK leaves it
so when the HTTP answer has no body). -/
structure DescribeDomainRecordsResponse where
  Body : Option ResponseBody
deriving DecidableEq, Repr

/-- The SDK handle `*alidns.Client`: the three remote calls the client uses,
each a function of the request and the remote state giving a result or an
error message and the next remote state. Nothing is assumed about them. -/
structure Client (σ : Type) where
  DescribeDomainRecords :
    DescribeDomainRecordsRequest → σ → Except GoString DescribeDomainRecordsResponse × σ
  AddDomainRecord : AddDomainRecordRequest → σ → Except GoString Unit × σ
  DeleteDomainRecord : DeleteDomainRecordRequest → σ → Except GoString Unit × σ

end alidns

/-! ## The observable world -/

/-- What a run does that can be seen from outside, in order. -/
inductive Event where
  | describe (req : alidns.DescribeDomainRecordsRequest)
  | add (req : alidns.AddDomainRecordRequest)
  | delete (req : alidns.DeleteDomainRecordRequest)
  | stdout (text : GoString)
  | stderr (text : GoString)
deriving DecidableEq, Repr

/-- The remote state and the chronological trace of calls and output. -/
structure World (σ : Type) where
  remote : σ
  trace : List Event
deriving DecidableEq

namespace World

variable {σ : Type}

/-- Writing to standard output (`fmt.Printf`, `fmt.Println`). -/
def printf (w : World σ) (text : GoString) : World σ :=
  { w with trace := w.trace ++ [Event.stdout text] }

/-- Writing to standard error (`fmt.Fprintf(os.Stderr, ...)`). -/
def eprintf (w : World σ) (text : GoString) : World σ :=
  { w with trace := w.trace ++ [Event.stderr text] }

def callDescribe (w : World σ) (h : alidns.Client σ) (req : alidns.DescribeDomainRecordsRequest) :
    Except GoString alidns.DescribeDomainRecordsResponse × World σ :=
  ((h.DescribeDomainRecords req w.remote).1,
   { remote := (h.DescribeDomainRecords req w.remote).2,
     trace := w.trace ++ [Event.describe req] })

def callAdd (w : World σ) (h : alidns.Client σ) (req : alidns.AddDomainRecordRequest) :
    Except GoString Unit × World σ :=
  ((h.AddDomainRecord req w.remote).1,
   { remote := (h.AddDomainRecord req w.remote).2, trace := w.trace ++ [Event.add req] })

def callDelete (w : World σ) (h : alidns.Client σ) (req : alidns.DeleteDomainRecordRequest) :
    Except GoString Unit × World σ :=
  ((h.DeleteDomainRecord req w.remote).1,
   { remote := (h.DeleteDomainRecord req w.remote).2, trace := w.trace ++ [Event.delete req] })

end World

/-! ## `pkg/dns/client.go` -/

namespace dns

variable {σ : Type}

/-- Go's `dns.Client`. -/
structure Client (σ : Type) where
  client : alidns.Client σ
  baseDomain : GoString

/-- Go's `dns.Config`. -/
structure Config where
  AccessKeyID : GoString
  AccessKeySecret : GoString
  BaseDomain : GoString
  Endpoint : GoString
deriving DecidableEq, Repr

/-- Go's `dns.DomainRecord`. -/
structure DomainRecord where
  ID : GoString
  RR : GoString
  Type_ : GoString
  Value : GoString
  Status : GoString
deriving DecidableEq, Repr

/-- The two defaulting assignments at the head of `NewClient`. -/
def Config.withDefaults (cfg : Config) : Config :=
  let cfg1 := if cfg.Endpoint = [] then
    { cfg with Endpoint := str "alidns.cn-hangzhou.aliyuncs.com" } else cfg
  if cfg1.BaseDomain = [] then { cfg1 with BaseDomain := str "alaudatech.net" } else cfg1

/-- Go's `NewClient`. The SDK constructor `alidns.NewClient` is the parameter
`sdkNewClient`. The two defaults are written to the `Config` the caller
passed, never to the flag variables of `cmd`. -/
def NewClient (sdkNewClient : openapi.Config → Except GoString (alidns.Client σ))
    (cfg : Config) : Except GoString (Client σ) :=
  let cfg1 := cfg.withDefaults
  let config : openapi.Config :=
    { AccessKeyId := some cfg1.AccessKeyID
      AccessKeySecret := some cfg1.AccessKeySecret
      Endpoint := some cfg1.Endpoint }
  match sdkNewClient config with
  | Except.error err => Except.error (str "failed to create DNS client: " ++ err)
  | Except.ok client => Except.ok { client := client, baseDomain := cfg1.BaseDomain }

/-- The guard `response.Body.DomainRecords == nil ||
response.Body.DomainRecords.Record == nil` shared by the three readers, and
the record slice when the guard is false: `value none` when the guard holds,
`value (some records)` when it does not, and a panic when `Body` is nil (the
guard reads `response.Body.DomainRecords` without a check). -/
def responseRecords (response : alidns.DescribeDomainRecordsResponse) :
    Ret (Option (List (Option alidns.Record))) :=
  match response.Body with
  | none => Ret.panic
  | some body =>
    match body.DomainRecords with
    | none => Ret.value none
    | some drs => Ret.value drs.Record

/-- The `for ... range` loop of `checkRecordExists`: `true` at the first
record with this name and value; reading a nil element panics. -/
def checkLoop (domainPrefix ipAddr : GoString) : List (Option alidns.Record) → Ret Bool
  | [] => Ret.value false
  | none :: _ => Ret.panic
  | some record :: rest =>
    if StringValue record.RR = domainPrefix ∧ StringValue record.Value = ipAddr then
      Ret.value true
    else checkLoop domainPrefix ipAddr rest

/-- Go's `checkRecordExists`. -/
def checkRecordExists (c : Client σ) (domainPrefix ipAddr recordType : GoString)
    (w : World σ) : Ret (Except GoString Bool) × World σ :=
  let request : alidns.DescribeDomainRecordsRequest :=
    { DomainName := some c.baseDomain
      RRKeyWord := some domainPrefix
      Type_ := some recordType
      PageSize := none }
  match w.callDescribe c.client request with
  | (Except.error err, w1) => (Ret.value (Except.error err), w1)
  | (Except.ok response, w1) =>
    match responseRecords response with
    | Ret.panic => (Ret.panic, w1)
    | Ret.value none => (Ret.value (Except.ok false), w1)
    | Ret.value (some records) =>
      match checkLoop domainPrefix ipAddr records with
      | Ret.panic => (Ret.panic, w1)
      | Ret.value found => (Ret.value (Except.ok found), w1)

/-- Go's `findRecordID`. -/
def findRecordID (c : Client σ) (domainPrefix : GoString) (w : World σ) :
    Ret (Except GoString GoString) × World σ :=
  let request : alidns.DescribeDomainRecordsRequest :=
    { DomainName := some c.baseDomain
      RRKeyWord := some domainPrefix
      Type_ := none
      PageSize := none }
  match w.callDescribe c.client request with
  | (Except.error err, w1) => (Ret.value (Except.error err), w1)
  | (Except.ok response, w1) =>
    match responseRecords response with
    | Ret.panic => (Ret.panic, w1)
    | Ret.value none => (Ret.value (Except.ok []), w1)
    | Ret.value (some []) => (Ret.value (Except.ok []), w1)
    | Ret.value (some (none :: _)) => (Ret.panic, w1)
    | Ret.value (some (some record :: _)) =>
      (Ret.value (Except.ok (StringValue record.RecordId)), w1)

/-- The record type `AddDomainRecord` derives from a parsed address: `"A"`
unless `To4` is `nil`. -/
def recordTypeOf (ip : List (Fin 256)) : GoString :=
  if net.To4 ip = none then str "AAAA" else str "A"

/-- Go's `AddDomainRecord`: how the call ends (the returned error, `none` for
`nil`, or a panic) and the world at that point. -/
def AddDomainRecord (c : Client σ) (domainPrefix ipAddr : GoString) (w : World σ) :
    Ret (Option GoString) × World σ :=
  let fullDomain := domainPrefix ++ str "." ++ c.baseDomain
  match net.ParseIP ipAddr with
  | none => (Ret.value (some (str "invalid IP address: " ++ ipAddr)), w)
  | some ip =>
    let recordType := recordTypeOf ip
    match checkRecordExists c domainPrefix ipAddr recordType w with
    | (Ret.panic, w1) => (Ret.panic, w1)
    | (Ret.value (Except.error err), w1) =>
      (Ret.value (some (str "failed to check existing record: " ++ err)), w1)
    | (Ret.value (Except.ok true), w1) =>
      (Ret.value none, w1.printf (str "Domain \x27" ++ fullDomain ++
        str "\x27 is already mapped to " ++ ipAddr ++ str ", skipping\n"))
    | (Ret.value (Except.ok false), w1) =>
      let request : alidns.AddDomainRecordRequest :=
        { DomainName := some c.baseDomain
          RR := some domainPrefix
          Type_ := some recordType
          Value := some ipAddr }
      match w1.callAdd c.client request with
      | (Except.error err, w2) =>
        (Ret.value (some (str "failed to add domain record: " ++ err)), w2)
      | (Except.ok _, w2) =>
        (Ret.value none, w2.printf (str "Successfully added DNS record: " ++ fullDomain ++
          str " -> " ++ ipAddr ++ str "\n"))

/-- Go's `DeleteDomainRecord`. The Go function never reads its `ipAddr`
parameter. -/
def DeleteDomainRecord (c : Client σ) (domainPrefix _ipAddr : GoString) (w : World σ) :
    Ret (Option GoString) × World σ :=
  let fullDomain := domainPrefix ++ str "." ++ c.baseDomain
  match findRecordID c domainPrefix w with
  | (Ret.panic, w1) => (Ret.panic, w1)
  | (Ret.value (Except.error err), w1) =>
    (Ret.value (some (str "failed to find record: " ++ err)), w1)
  | (Ret.value (Except.ok recordID), w1) =>
    if recordID = [] then
      (Ret.value none, w1.printf (str "Domain \x27" ++ fullDomain ++
        str "\x27 does not exist, no cleanup needed\n"))
    else
      let request : alidns.DeleteDomainRecordRequest := { RecordId := some recordID }
      match w1.callDelete c.client request with
      | (Except.error err, w2) =>
        (Ret.value (some (str "failed to delete domain record: " ++ err)), w2)
      | (Except.ok _, w2) =>
        (Ret.value none, w2.printf (str "Successfully deleted DNS record: " ++ fullDomain ++
          str " (ID: " ++ recordID ++ str ")\n"))

/-- The conversion of one SDK record in the loop of `ListAllDomainRecords`. -/
def toDomainRecord (record : alidns.Record) : DomainRecord :=
  { ID := StringValue record.RecordId
    RR := StringValue record.RR
    Type_ := StringValue record.Type_
    Value := StringValue record.Value
    Status := StringValue record.Status }

/-- The `for ... range` loop of `ListAllDomainRecords`: one row per record, in
order; reading a nil element panics. -/
def listLoop : List (Option alidns.Record) → Ret (List DomainRecord)
  | [] => Ret.value []
  | none :: _ => Ret.panic
  | some record :: rest =>
    match listLoop rest with
    | Ret.panic => Ret.panic
    | Ret.value rows => Ret.value (toDomainRecord record :: rows)

/-- Go's `ListAllDomainRecords`. -/
def ListAllDomainRecords (c : Client σ) (w : World σ) :
    Ret (Except GoString (List DomainRecord)) × World σ :=
  let request : alidns.DescribeDomainRecordsRequest :=
    { DomainName := some c.baseDomain
      RRKeyWord := none
      Type_ := none
      PageSize := some 100 }
  match w.callDescribe c.client request with
  | (Except.error err, w1) =>
    (Ret.value (Except.error (str "failed to list domain records: " ++ err)), w1)
  | (Except.ok response, w1) =>
    match responseRecords response with
    | Ret.panic => (Ret.panic, w1)
    | Ret.value none => (Ret.value (Except.ok []), w1)
    | Ret.value (some records) =>
      match listLoop records with
      | Ret.panic => (Ret.panic, w1)
      | Ret.value rows => (Ret.value (Except.ok rows), w1)

/-- One pass of the loop of `CleanupDomainRecords` for `domainPrefix`: the
pass completes (`value ()`, also after a `continue`) or panics. -/
def cleanupOne (c : Client σ) (domainPrefix : GoString) (w : World σ) : Ret Unit × World σ :=
  match findRecordID c domainPrefix w with
  | (Ret.panic, w1) => (Ret.panic, w1)
  | (Ret.value (Except.error err), w1) =>
    (Ret.value (), w1.eprintf (str "Failed to find record for " ++ domainPrefix ++ str ": " ++
      err ++ str "\n"))
  | (Ret.value (Except.ok recordID), w1) =>
    if recordID = [] then
      (Ret.value (), w1.printf (str "Domain \x27" ++ domainPrefix ++ str "." ++ c.baseDomain ++
        str "\x27 does not exist, skipping\n"))
    else
      let request : alidns.DeleteDomainRecordRequest := { RecordId := some recordID }
      match w1.callDelete c.client request with
      | (Except.error err, w2) =>
        (Ret.value (), w2.eprintf (str "Failed to delete " ++ domainPrefix ++ str "." ++
          c.baseDomain ++ str ": " ++ err ++ str "\n"))
      | (Except.ok _, w2) =>
        (Ret.value (), w2.printf (str "Deleted: " ++ domainPrefix ++ str "." ++ c.baseDomain ++
          str " (ID: " ++ recordID ++ str ")\n"))

/-- The `for ... range domainPrefixes` loop of `CleanupDomainRecords`; a panic
in a pass ends the loop. -/
def cleanupLoop (c : Client σ) : List GoString → World σ → Ret Unit × World σ
  | [], w => (Ret.value (), w)
  | domainPrefix :: rest, w =>
    match cleanupOne c domainPrefix w with
    | (Ret.panic, w1) => (Ret.panic, w1)
    | (Ret.value _, w1) => cleanupLoop c rest w1

/-- Go's `CleanupDomainRecords`. -/
def CleanupDomainRecords (c : Client σ) (domainPrefixes : List GoString) (w : World σ) :
    Ret (Option GoString) × World σ :=
  match cleanupLoop c domainPrefixes
    (w.printf (str "Cleaning up " ++ fmtNat domainPrefixes.length ++
      str " specified domain(s)...\n")) with
  | (Ret.panic, w1) => (Ret.panic, w1)
  | (Ret.value _, w1) => (Ret.value none, w1)

end dns

/-! ## `pkg/dns/client.go`: `GenerateToolDomains` and `replaceAll` -/

namespace dns

/-- The loop of Go's `replaceAll`, started at index `i` with the text built so
far in `result`. After a match the Go code adds `len(old) - 1` to `i` and the
loop header adds one more, `len(old)` in all. `fuel` bounds the number of
passes: the Go loop does not terminate when `old` is empty and `s` is not, so
the embedding returns `none` when the passes run out. -/
def replaceAllLoop (s old new : GoString) : Nat → Nat → GoString → Option GoString
  | 0, i, result => if i < s.length then none else some result
  | fuel + 1, i, result =>
    if h : i < s.length then
      if i + old.length ≤ s.length ∧ (s.drop i).take old.length = old then
        replaceAllLoop s old new fuel (i + old.length) (result ++ new)
      else
        replaceAllLoop s old new fuel (i + 1) (result ++ encodeRune (s.get ⟨i, h⟩).val)
    else some result

/-- Go's `replaceAll` with a bound on the loop passes. -/
def replaceAll (fuel : Nat) (s old new : GoString) : Option GoString :=
  replaceAllLoop s old new fuel 0 []

/-- The tool names of `GenerateToolDomains`. -/
def tools : List GoString :=
  [str "jenkins", str "gitlab", str "sonar", str "harbor", str "katanomi", str "nexus"]

/-- Go's `GenerateToolDomains`; `fuel` bounds each `replaceAll` loop. -/
def GenerateToolDomains (fuel : Nat) (ipAddr : GoString) : Option (List GoString) :=
  match replaceAll fuel ipAddr (str ":") (str "-") with
  | none => none
  | some name1 =>
    match replaceAll fuel name1 (str ".") (str "-") with
    | none => none
    | some name => some (tools.map (fun tool => name ++ str "-" ++ tool))

end dns

/-! ## `cmd/root.go` -/

namespace cmd

variable {σ : Type}

/-- The package-level flag variables of `cmd/root.go` after flag parsing. -/
structure Flags where
  accessKeyID : GoString
  accessKeySecret : GoString
  baseDomain : GoString
  ipAddr : GoString
  domainPrefixes : List GoString
deriving DecidableEq, Repr

/-- Go's `createClient`. `Endpoint` is left at its zero value. -/
def createClient (sdkNewClient : openapi.Config → Except GoString (alidns.Client σ))
    (flags : Flags) : Except GoString (dns.Client σ) :=
  dns.NewClient sdkNewClient
    { AccessKeyID := flags.accessKeyID
      AccessKeySecret := flags.accessKeySecret
      BaseDomain := flags.baseDomain
      Endpoint := [] }

/-- The `for ... range domainPrefixes` loop of `runAdd`; a panic in a call
ends the loop. -/
def runAddLoop (client : dns.Client σ) (ipAddr : GoString) :
    List GoString → World σ → Ret Unit × World σ
  | [], w => (Ret.value (), w)
  | domainPrefix :: rest, w =>
    match dns.AddDomainRecord client domainPrefix ipAddr w with
    | (Ret.panic, w1) => (Ret.panic, w1)
    | (Ret.value (some err), w1) =>
      runAddLoop client ipAddr rest
        (w1.eprintf (str "Failed to add " ++ domainPrefix ++ str ": " ++ err ++ str "\n"))
    | (Ret.value none, w1) => runAddLoop client ipAddr rest w1

/-- Go's `runAdd`. -/
def runAdd (sdkNewClient : openapi.Config → Except GoString (alidns.Client σ))
    (flags : Flags) (w : World σ) : Ret (Option GoString) × World σ :=
  match createClient sdkNewClient flags with
  | Except.error err => (Ret.value (some err), w)
  | Except.ok client =>
    match runAddLoop client flags.ipAddr flags.domainPrefixes w with
    | (Ret.panic, w1) => (Ret.panic, w1)
    | (Ret.value _, w1) => (Ret.value none, w1)

/-- The `for ... range domainPrefixes` loop of `runDelete`; a panic in a call
ends the loop. -/
def runDeleteLoop (client : dns.Client σ) (ipAddr : GoString) :
    List GoString → World σ → Ret Unit × World σ
  | [], w => (Ret.value (), w)
  | domainPrefix :: rest, w =>
    match dns.DeleteDomainRecord client domainPrefix ipAddr w with
    | (Ret.panic, w1) => (Ret.panic, w1)
    | (Ret.value (some err), w1) =>
      runDeleteLoop client ipAddr rest
        (w1.eprintf (str "Failed to delete " ++ domainPrefix ++ str ": " ++ err ++ str "\n"))
    | (Ret.value none, w1) => runDeleteLoop client ipAddr rest w1

/-- Go's `runDelete`. -/
def runDelete (sdkNewClient : openapi.Config → Except GoString (alidns.Client σ))
    (flags : Flags) (w : World σ) : Ret (Option GoString) × World σ :=
  match createClient sdkNewClient flags with
  | Except.error err => (Ret.value (some err), w)
  | Except.ok client =>
    match runDeleteLoop client flags.ipAddr flags.domainPrefixes w with
    | (Ret.panic, w1) => (Ret.panic, w1)
    | (Ret.value _, w1) => (Ret.value none, w1)

/-- The full domain name `runList` computes for a record: it is built from
the flag variable `baseDomain`. -/
def listFullDomain (flags : Flags) (record : dns.DomainRecord) : GoString :=
  record.RR ++ str "." ++ flags.baseDomain

/-- The table row `runList` prints for a record. -/
def listRow (flags : Flags) (record : dns.DomainRecord) : GoString :=
  padRight 40 (listFullDomain flags record) ++ str " " ++ padRight 10 record.Type_ ++ str " " ++
    padRight 20 record.Value ++ str " " ++ record.Status ++ str "\n"

/-- The `for ... range records` loop of `runList`. -/
def runListLoop (flags : Flags) : List dns.DomainRecord → World σ → World σ
  | [], w => w
  | record :: rest, w => runListLoop flags rest (w.printf (listRow flags record))

/-- Go's `runList`. -/
def runList (sdkNewClient : openapi.Config → Except GoString (alidns.Client σ))
    (flags : Flags) (w : World σ) : Ret (Option GoString) × World σ :=
  match createClient sdkNewClient flags with
  | Except.error err => (Ret.value (some err), w)
  | Except.ok client =>
    match dns.ListAllDomainRecords client w with
    | (Ret.panic, w1) => (Ret.panic, w1)
    | (Ret.value (Except.error err), w1) => (Ret.value (some err), w1)
    | (Ret.value (Except.ok records), w1) =>
      if records.length = 0 then
        (Ret.value none,
          w1.printf (str "No DNS records found under " ++ flags.baseDomain ++ str "\n"))
      else
        let w2 := w1.printf (str "DNS Records under " ++ flags.baseDomain ++ str ":\n")
        let w3 := w2.printf (padRight 40 (str "Domain") ++ str " " ++ padRight 10 (str "Type") ++
          str " " ++ padRight 20 (str "Value") ++ str " " ++ str "Status" ++ str "\n")
        let w4 := w3.printf (str
          "------------------------------------------------------------------------------------"
          ++ str "\n")
        let w5 := runListLoop flags records w4
        (Ret.value none,
          w5.printf (str "\nTotal: " ++ fmtNat records.length ++ str " record(s)\n"))

/-- Go's `runCleanup`. -/
def runCleanup (sdkNewClient : openapi.Config → Except GoString (alidns.Client σ))
    (flags : Flags) (w : World σ) : Ret (Option GoString) × World σ :=
  match createClient sdkNewClient flags with
  | Except.error err => (Ret.value (some err), w)
  | Except.ok client => dns.CleanupDomainRecords client flags.domainPrefixes w

end cmd

/-! ## A reference provider -/

namespace sim

/-- Modelled from the spec: the remote DNS provider (an external service, not
part of the repository), after the contract of section 6.2. The state of a
zone: the records it holds and the counter for fresh identifiers. -/
structure Zone where
  records : List alidns.Record
  nextId : Nat
deriving DecidableEq, Repr

/-- Modelled from the spec: the provider keyword match of section 6.2
("substring/prefix style"): `kw` occurs in `rr` as a contiguous substring. -/
def keywordMatch (kw : GoString) : GoString → Bool
  | [] => kw.isPrefixOf []
  | c :: rest => kw.isPrefixOf (c :: rest) || keywordMatch kw rest

/-- Modelled from the spec: whether a held record answers a lookup request
(section 6.2, `LookupRecords(domainName, rrKeyword?, type?)`): an unset
keyword or type does not filter. -/
def answers (req : alidns.DescribeDomainRecordsRequest) (r : alidns.Record) : Bool :=
  (match req.RRKeyWord with
   | none => true
   | some kw => keywordMatch kw (StringValue r.RR)) &&
  (match req.Type_ with
   | none => true
   | some t => decide (StringValue r.Type_ = t))

/-- A well-formed lookup response carrying the given records. -/
def answer (records : List alidns.Record) : alidns.DescribeDomainRecordsResponse :=
  { Body := some { DomainRecords := some { Record := some (records.map some) } } }

/-- Modelled from the spec: the lookup call of section 6.2; it never fails
and leaves the zone unchanged. The zone is taken to fit one page. -/
def describe (req : alidns.DescribeDomainRecordsRequest) (z : Zone) :
    Except GoString alidns.DescribeDomainRecordsResponse × Zone :=
  (Except.ok (answer (z.records.filter (answers req))), z)

/-- Modelled from the spec: the create call of section 6.2; the new record
gets a fresh identifier and is appended to the zone. -/
def create (req : alidns.AddDomainRecordRequest) (z : Zone) : Except GoString Unit × Zone :=
  (Except.ok (),
   { records := z.records ++
       [{ RecordId := some (fmtNat z.nextId), RR := req.RR, Type_ := req.Type_,
          Value := req.Value, Status := some (str "ENABLE") }],
     nextId := z.nextId + 1 })

/-- Modelled from the spec: the delete call of section 6.2; the record with
the given identifier leaves the zone. -/
def delete (req : alidns.DeleteDomainRecordRequest) (z : Zone) : Except GoString Unit × Zone :=
  (Except.ok (), { z with records := z.records.filter (fun r => decide (r.RecordId ≠ req.RecordId)) })

/-- The SDK handle of the reference provider. -/
def handle : alidns.Client Zone :=
  { DescribeDomainRecords := describe
    AddDomainRecord := create
    DeleteDomainRecord := delete }

/-- A provider handle whose lookups succeed with a response that has no body
(what the SDK delivers for an HTTP answer 200 with an empty body). -/
def bodiless : alidns.Client Zone :=
  { DescribeDomainRecords := fun _ z => (Except.ok { Body := none }, z)
    AddDomainRecord := create
    DeleteDomainRecord := delete }

/-- An SDK constructor that always succeeds with the body-less provider. -/
def newBodilessClient (_config : openapi.Config) : Except GoString (alidns.Client Zone) :=
  Except.ok bodiless

/-- An SDK constructor that always succeeds with the reference provider. -/
def newClient (_config : openapi.Config) : Except GoString (alidns.Client Zone) :=
  Except.ok handle

end sim

variable {σ : Type}

/-! ## Vocabulary of the statements -/

/-- The entries of the record slice of a lookup response, nil entries
included; none when the body, `DomainRecords` or its `Record` slice is
absent. -/
def entries (response : alidns.DescribeDomainRecordsResponse) : List (Option alidns.Record) :=
  match dns.responseRecords response with
  | Ret.value (some records) => records
  | _ => []

/-- The records a lookup response carries: its non-nil entries, in order. -/
def returned (response : alidns.DescribeDomainRecordsResponse) : List alidns.Record :=
  (entries response).filterMap id

/-- A lookup response is well formed: it has a body, and no entry of its
record slice is nil. -/
def WellFormed (response : alidns.DescribeDomainRecordsResponse) : Prop :=
  response.Body ≠ none ∧ ∀ e ∈ entries response, e ≠ none

instance (response : alidns.DescribeDomainRecordsResponse) : Decidable (WellFormed response) := by
  unfold WellFormed; infer_instance

/-- The client can read the first identifier of a lookup response: the
response has a body and, when its record slice is not empty, a first entry
that is not nil. The identifier read is `firstId`. -/
def FirstReadable (response : alidns.DescribeDomainRecordsResponse) : Prop :=
  response.Body ≠ none ∧ (entries response).head? ≠ some none

/-- Every successful lookup of the provider answers with a well-formed
response. -/
def WellFormedAnswers (h : alidns.Client σ) : Prop :=
  ∀ req s response, (h.DescribeDomainRecords req s).1 = Except.ok response → WellFormed response

/-- Some record of the list has exactly this relative name and this value. -/
def hasPair (records : List alidns.Record) (domainPrefix ipAddr : GoString) : Prop :=
  ∃ r ∈ records, StringValue r.RR = domainPrefix ∧ StringValue r.Value = ipAddr

instance (records : List alidns.Record) (domainPrefix ipAddr : GoString) :
    Decidable (hasPair records domainPrefix ipAddr) := by
  unfold hasPair; infer_instance

/-- The identifier `findRecordID` reads from a lookup response: that of the
first record, `""` when there is none. -/
def firstId (response : alidns.DescribeDomainRecordsResponse) : GoString :=
  match returned response with
  | [] => []
  | record :: _ => StringValue record.RecordId

/-- The lookup request `checkRecordExists` sends. -/
def lookupRequest (c : dns.Client σ) (domainPrefix recordType : GoString) :
    alidns.DescribeDomainRecordsRequest :=
  { DomainName := some c.baseDomain, RRKeyWord := some domainPrefix, Type_ := some recordType,
    PageSize := none }

/-- The create request `AddDomainRecord` sends. -/
def createRequest (c : dns.Client σ) (domainPrefix recordType ipAddr : GoString) :
    alidns.AddDomainRecordRequest :=
  { DomainName := some c.baseDomain, RR := some domainPrefix, Type_ := some recordType,
    Value := some ipAddr }

/-- The lookup request `findRecordID` sends. -/
def findRequest (c : dns.Client σ) (domainPrefix : GoString) :
    alidns.DescribeDomainRecordsRequest :=
  { DomainName := some c.baseDomain, RRKeyWord := some domainPrefix, Type_ := none,
    PageSize := none }

/-- The lookup request `ListAllDomainRecords` sends. -/
def listRequest (c : dns.Client σ) : alidns.DescribeDomainRecordsRequest :=
  { DomainName := some c.baseDomain, RRKeyWord := none, Type_ := none, PageSize := some 100 }

/-- The events of `later` that come after the trace of `earlier`. -/
def World.since (later earlier : World σ) : List Event :=
  later.trace.drop earlier.trace.length

/-- Whether an event is a provider call. -/
def Event.isCall : Event → Bool
  | Event.describe _ => true
  | Event.add _ => true
  | Event.delete _ => true
  | _ => false

/-- The record type a provider call carries, for the calls that carry one. -/
def Event.sentType : Event → Option (Option GoString)
  | Event.describe req => some req.Type_
  | Event.add req => some req.Type_
  | _ => none

/-- The create requests among some events, in order. -/
def creates (es : List Event) : List alidns.AddDomainRecordRequest :=
  es.filterMap (fun e => match e with
    | Event.add req => some req
    | _ => none)

/-- The delete requests among some events, in order. -/
def deletes (es : List Event) : List alidns.DeleteDomainRecordRequest :=
  es.filterMap (fun e => match e with
    | Event.delete req => some req
    | _ => none)

/-- The lookup requests among some events, in order. -/
def lookups (es : List Event) : List alidns.DescribeDomainRecordsRequest :=
  es.filterMap (fun e => match e with
    | Event.describe req => some req
    | _ => none)

/-- The lines written to standard output or standard error among some
events. -/
def reports (es : List Event) : List Event := es.filter (fun e => !e.isCall)

/-- The number of records with exactly this relative name and this value. -/
def pairCount (records : List alidns.Record) (domainPrefix ipAddr : GoString) : Nat :=
  (records.filter (fun r =>
    decide (StringValue r.RR = domainPrefix ∧ StringValue r.Value = ipAddr))).length

/-- The line `runAdd` writes to standard error for a prefix when the IP text
is not valid. -/
def invalidIPLine (domainPrefix ipAddr : GoString) : Event :=
  Event.stderr (str "Failed to add " ++ domainPrefix ++ str ": " ++
    (str "invalid IP address: " ++ ipAddr) ++ str "\n")

/-! ## Valid IP texts, the selected type, replaced text -/

/-- The text is a syntactically valid IPv4 address: `netip.ParseAddr` reads
it as an address of the IPv4 family. -/
def ValidIPv4 (s : GoString) : Bool :=
  match netip.ParseAddr s with
  | some a => a.Is4
  | none => false

/-- The text is a syntactically valid IPv6 address (without zone):
`netip.ParseAddr` reads it as an address of the IPv6 family. -/
def ValidIPv6 (s : GoString) : Bool :=
  match netip.ParseAddr s with
  | some a => a.Is6 && decide (a.Zone = [])
  | none => false

/-- The text is an IPv6 address of the IPv4-mapped block `::ffff:0:0/96`. -/
def IPv4Mapped (s : GoString) : Bool :=
  match netip.ParseAddr s with
  | some a => a.Is4In6
  | none => false

/-- `AddDomainRecord` selects record type `t`: it sends the lookup, and every
lookup and create request it sends carries `Type = t`. -/
def SelectsType (c : dns.Client σ) (domainPrefix ipAddr : GoString) (w : World σ)
    (t : GoString) : Prop :=
  (((dns.AddDomainRecord c domainPrefix ipAddr w).2.since w).filterMap Event.sentType ≠ []) ∧
  ∀ x ∈ ((dns.AddDomainRecord c domainPrefix ipAddr w).2.since w).filterMap Event.sentType,
    x = some t

instance (c : dns.Client σ) (domainPrefix ipAddr : GoString) (w : World σ) (t : GoString) :
    Decidable (SelectsType c domainPrefix ipAddr w t) := by
  unfold SelectsType; infer_instance

/-- The text with every `:` and every `.` replaced by `-`, byte by byte (what
a standard replace-all of these one-byte patterns gives). -/
def dashed (s : GoString) : GoString :=
  s.map (fun b => if b = 58 ∨ b = 46 then 45 else b)

/-- What one pass of `replaceAll` with the one-byte pattern `o` makes of the
byte `b`: the replacement for `o`, and `string(b)` for any other byte. -/
def rewriteByte (o : Fin 256) (new : GoString) (b : Fin 256) : GoString :=
  if b = o then new else encodeRune b.val

/-! ## The operations written out call by call -/

/-- The expected behaviour of `AddDomainRecord` on a parsed address, written
out call by call. -/
def addOutcome (c : dns.Client σ) (p ip t : GoString) (w : World σ) :
    Option GoString × World σ :=
  let d := c.client.DescribeDomainRecords (lookupRequest c p t) w.remote
  match d.1 with
  | Except.error err =>
    (some (str "failed to check existing record: " ++ err),
     { remote := d.2, trace := w.trace ++ [Event.describe (lookupRequest c p t)] })
  | Except.ok response =>
    if hasPair (returned response) p ip then
      (none, { remote := d.2, trace := w.trace ++ [Event.describe (lookupRequest c p t),
        Event.stdout (str "Domain \x27" ++ (p ++ str "." ++ c.baseDomain) ++
          str "\x27 is already mapped to " ++ ip ++ str ", skipping\n")] })
    else
      let a := c.client.AddDomainRecord (createRequest c p t ip) d.2
      match a.1 with
      | Except.error err =>
        (some (str "failed to add domain record: " ++ err),
         { remote := a.2, trace := w.trace ++ [Event.describe (lookupRequest c p t),
            Event.add (createRequest c p t ip)] })
      | Except.ok _ =>
        (none, { remote := a.2, trace := w.trace ++ [Event.describe (lookupRequest c p t),
            Event.add (createRequest c p t ip),
            Event.stdout (str "Successfully added DNS record: " ++ (p ++ str "." ++ c.baseDomain) ++
              str " -> " ++ ip ++ str "\n")] })

/-- The expected behaviour of `DeleteDomainRecord`, written out call by
call. -/
def deleteOutcome (c : dns.Client σ) (p : GoString) (w : World σ) :
    Option GoString × World σ :=
  let d := c.client.DescribeDomainRecords (findRequest c p) w.remote
  match d.1 with
  | Except.error err =>
    (some (str "failed to find record: " ++ err),
     { remote := d.2, trace := w.trace ++ [Event.describe (findRequest c p)] })
  | Except.ok response =>
    if firstId response = [] then
      (none, { remote := d.2, trace := w.trace ++ [Event.describe (findRequest c p),
        Event.stdout (str "Domain \x27" ++ (p ++ str "." ++ c.baseDomain) ++
          str "\x27 does not exist, no cleanup needed\n")] })
    else
      let x := c.client.DeleteDomainRecord { RecordId := some (firstId response) } d.2
      match x.1 with
      | Except.error err =>
        (some (str "failed to delete domain record: " ++ err),
         { remote := x.2, trace := w.trace ++ [Event.describe (findRequest c p),
            Event.delete { RecordId := some (firstId response) }] })
      | Except.ok _ =>
        (none, { remote := x.2, trace := w.trace ++ [Event.describe (findRequest c p),
            Event.delete { RecordId := some (firstId response) },
            Event.stdout (str "Successfully deleted DNS record: " ++
              (p ++ str "." ++ c.baseDomain) ++ str " (ID: " ++ firstId response ++ str ")\n")] })

/-- The events one pass of the cleanup loop appends, written out call by
call. -/
def cleanupEvents (c : dns.Client σ) (p : GoString) (s : σ) : List Event :=
  match (c.client.DescribeDomainRecords (findRequest c p) s).1 with
  | Except.error err =>
    [Event.describe (findRequest c p),
     Event.stderr (str "Failed to find record for " ++ p ++ str ": " ++ err ++ str "\n")]
  | Except.ok response =>
    if firstId response = [] then
      [Event.describe (findRequest c p),
       Event.stdout (str "Domain \x27" ++ p ++ str "." ++ c.baseDomain ++
         str "\x27 does not exist, skipping\n")]
    else
      match (c.client.DeleteDomainRecord { RecordId := some (firstId response) }
          (c.client.DescribeDomainRecords (findRequest c p) s).2).1 with
      | Except.error err =>
        [Event.describe (findRequest c p), Event.delete { RecordId := some (firstId response) },
         Event.stderr (str "Failed to delete " ++ p ++ str "." ++ c.baseDomain ++ str ": " ++
           err ++ str "\n")]
      | Except.ok _ =>
        [Event.describe (findRequest c p), Event.delete { RecordId := some (firstId response) },
         Event.stdout (str "Deleted: " ++ p ++ str "." ++ c.baseDomain ++ str " (ID: " ++
           firstId response ++ str ")\n")]

/-- The remote state after one pass of the cleanup loop. -/
def cleanupRemote (c : dns.Client σ) (p : GoString) (s : σ) : σ :=
  match (c.client.DescribeDomainRecords (findRequest c p) s).1 with
  | Except.error _ => (c.client.DescribeDomainRecords (findRequest c p) s).2
  | Except.ok response =>
    if firstId response = [] then (c.client.DescribeDomainRecords (findRequest c p) s).2
    else (c.client.DeleteDomainRecord { RecordId := some (firstId response) }
      (c.client.DescribeDomainRecords (findRequest c p) s).2).2

/-! ## What the claims assume or prescribe of the provider -/

/-- What the idempotence claim assumes of the provider, relative to a reading
`view` of the records a remote state holds: every lookup succeeds with a
well-formed response, leaves the
state as it is and returns only held records, among them every held record
whose relative name is the keyword and whose type is the requested type;
every create succeeds and adds exactly one record, with the requested name,
type and value. -/
structure Dependable (h : alidns.Client σ) (view : σ → List alidns.Record) : Prop where
  lookup_ok : ∀ req s, ∃ response,
    h.DescribeDomainRecords req s = (Except.ok response, s) ∧ WellFormed response ∧
    (∀ r ∈ returned response, r ∈ view s) ∧
    (∀ r ∈ view s, r.RR = req.RRKeyWord → r.Type_ = req.Type_ → r ∈ returned response)
  create_ok : ∀ req s, ∃ s1 r,
    h.AddDomainRecord req s = (Except.ok (), s1) ∧ view s1 = view s ++ [r] ∧
    r.RR = req.RR ∧ r.Type_ = req.Type_ ∧ r.Value = req.Value

/-- The provider calls the cleanup contract prescribes, from the remote state
`s`: for each prefix in turn one lookup, followed by one delete of the found
identifier when the lookup succeeded and found one; whether a lookup or a
delete fails changes nothing for the prefixes after it. -/
def cleanupCalls (c : dns.Client σ) : List GoString → σ → List Event
  | [], _ => []
  | p :: rest, s =>
    match (c.client.DescribeDomainRecords (findRequest c p) s).1 with
    | Except.error _ =>
      Event.describe (findRequest c p) ::
        cleanupCalls c rest (c.client.DescribeDomainRecords (findRequest c p) s).2
    | Except.ok response =>
      if firstId response = [] then
        Event.describe (findRequest c p) ::
          cleanupCalls c rest (c.client.DescribeDomainRecords (findRequest c p) s).2
      else
        Event.describe (findRequest c p) :: Event.delete { RecordId := some (firstId response) } ::
          cleanupCalls c rest
            (c.client.DeleteDomainRecord { RecordId := some (firstId response) }
              (c.client.DescribeDomainRecords (findRequest c p) s).2).2

/-! ## Concrete inputs over the reference provider -/

/-- The client of the body-less provider for the default base domain. -/
def sim.bodilessClient : dns.Client sim.Zone :=
  { client := sim.bodiless, baseDomain := str "alaudatech.net" }

/-- The client of the reference provider for the default base domain. -/
def sim.client : dns.Client sim.Zone :=
  { client := sim.handle, baseDomain := str "alaudatech.net" }

/-- A world over the reference provider with nothing traced yet. -/
def sim.world (records : List alidns.Record) : World sim.Zone :=
  { remote := { records := records, nextId := 1 }, trace := [] }

/-- A record of the reference provider. -/
def sim.record (id rr type value : String) : alidns.Record :=
  { RecordId := some (str id), RR := some (str rr), Type_ := some (str type),
    Value := some (str value), Status := some (str "ENABLE") }

/-- A record named `foo` whose identifier is absent. -/
def sim.recordWithoutId : alidns.Record :=
  { RecordId := none, RR := some (str "foo"), Type_ := some (str "A"),
    Value := some (str "10.0.0.1"), Status := none }

/-- The flags of the end-to-end example: `add --domains=foo,bar --ip=10.0.0.1`
with the default base domain. -/
def sim.exampleFlags : cmd.Flags :=
  { accessKeyID := str "id", accessKeySecret := str "secret",
    baseDomain := str "alaudatech.net", ipAddr := str "10.0.0.1",
    domainPrefixes := [str "foo", str "bar"] }

/-- The flags of `list --base-domain=""`. -/
def sim.emptyBaseFlags : cmd.Flags :=
  { accessKeyID := str "id", accessKeySecret := str "secret",
    baseDomain := [], ipAddr := [], domainPrefixes := [] }

/-! ## Reading a lookup response -/

theorem responseRecords_of_body (response : alidns.DescribeDomainRecordsResponse)
    (hb : response.Body ≠ none) :
    (dns.responseRecords response = Ret.value none ∧ entries response = []) ∨
    dns.responseRecords response = Ret.value (some (entries response)) := by
  unfold entries
  unfold dns.responseRecords at *
  rcases hbody : response.Body with _ | body
  · exact absurd hbody hb
  · rcases hd : body.DomainRecords with _ | drs
    · left; simp [hd]
    · rcases hr : drs.Record with _ | records
      · left; simp [hd, hr]
      · right; simp [hd, hr]

theorem checkLoop_of_no_nil (p ip : GoString) (l : List (Option alidns.Record))
    (h : ∀ e ∈ l, e ≠ none) :
    dns.checkLoop p ip l = Ret.value (decide (hasPair (l.filterMap id) p ip)) := by
  induction l with
  | nil => simp [dns.checkLoop, hasPair]
  | cons e rest ih =>
    cases e with
    | none => exact absurd rfl (h none (by simp))
    | some r =>
      have ih1 := ih (fun e he => h e (by simp [he]))
      unfold dns.checkLoop
      by_cases hm : StringValue r.RR = p ∧ StringValue r.Value = ip
      · rw [if_pos hm]
        congr 1
        symm
        rw [decide_eq_true_eq]
        exact ⟨r, by simp, hm⟩
      · rw [if_neg hm, ih1]
        congr 1
        rw [Bool.eq_iff_iff]
        have hcons : List.filterMap id (some r :: rest) = r :: List.filterMap id rest := rfl
        simp only [decide_eq_true_eq, hasPair, hcons, List.mem_cons]
        constructor
        · rintro ⟨x, hx, hxp⟩
          exact ⟨x, Or.inr hx, hxp⟩
        · rintro ⟨x, hx | hx, hxp⟩
          · exact absurd (hx ▸ hxp) hm
          · exact ⟨x, hx, hxp⟩

theorem checkRecordExists_eq (c : dns.Client σ) (p ip t : GoString) (w : World σ)
    (hwf : ∀ response,
      (c.client.DescribeDomainRecords (lookupRequest c p t) w.remote).1 = Except.ok response →
      WellFormed response) :
    dns.checkRecordExists c p ip t w =
      (Ret.value (match (c.client.DescribeDomainRecords (lookupRequest c p t) w.remote).1 with
        | Except.error err => Except.error err
        | Except.ok response => Except.ok (decide (hasPair (returned response) p ip))),
       { remote := (c.client.DescribeDomainRecords (lookupRequest c p t) w.remote).2,
         trace := w.trace ++ [Event.describe (lookupRequest c p t)] }) := by
  unfold dns.checkRecordExists World.callDescribe
  simp only [lookupRequest] at hwf ⊢
  rcases h : (c.client.DescribeDomainRecords _ w.remote).1 with err | response
  · simp [h]
  · simp only [h]
    have hw := hwf response h
    rcases responseRecords_of_body response hw.1 with ⟨hr, he⟩ | hr
    · simp [hr, returned, he, hasPair]
    · simp only [hr]
      rw [checkLoop_of_no_nil p ip _ hw.2]
      simp [returned]

theorem AddDomainRecord_eq (c : dns.Client σ) (p ip : GoString) (w : World σ)
    (b : List (Fin 256)) (hb : net.ParseIP ip = some b)
    (hwf : ∀ response,
      (c.client.DescribeDomainRecords (lookupRequest c p (dns.recordTypeOf b)) w.remote).1 =
        Except.ok response → WellFormed response) :
    dns.AddDomainRecord c p ip w =
      (Ret.value (addOutcome c p ip (dns.recordTypeOf b) w).1,
       (addOutcome c p ip (dns.recordTypeOf b) w).2) := by
  unfold dns.AddDomainRecord addOutcome
  simp only [hb, checkRecordExists_eq c p ip (dns.recordTypeOf b) w hwf]
  rcases h : (c.client.DescribeDomainRecords _ w.remote).1 with err | response
  · simp [h]
  · simp only [h]
    by_cases hp : hasPair (returned response) p ip
    · simp [hp, World.printf]
    · simp only [hp, decide_False, World.callAdd, createRequest, if_false]
      rcases ha : (c.client.AddDomainRecord _ _).1 with err | u
      · simp [ha]
      · simp [ha, World.printf]

theorem firstReadable_of_wellFormed (response : alidns.DescribeDomainRecordsResponse)
    (hwf : WellFormed response) : FirstReadable response := by
  refine ⟨hwf.1, ?_⟩
  intro h
  rcases he : entries response with _ | ⟨e, rest⟩
  · rw [he] at h; cases h
  · rw [he] at h
    simp only [List.head?_cons, Option.some.injEq] at h
    exact hwf.2 e (by simp [he]) h

theorem firstId_of_readable (response : alidns.DescribeDomainRecordsResponse)
    (hrd : FirstReadable response) :
    (dns.responseRecords response = Ret.value none ∧ firstId response = []) ∨
    (dns.responseRecords response = Ret.value (some []) ∧ firstId response = []) ∨
    ∃ r rest, dns.responseRecords response = Ret.value (some (some r :: rest)) ∧
      firstId response = StringValue r.RecordId := by
  rcases responseRecords_of_body response hrd.1 with ⟨hr, he⟩ | hr
  · left
    exact ⟨hr, by simp [firstId, returned, he]⟩
  · right
    rcases he : entries response with _ | ⟨e, rest⟩
    · left
      exact ⟨by rw [hr, he], by simp [firstId, returned, he]⟩
    · right
      cases e with
      | none => exact absurd (by simp [he]) hrd.2
      | some r => exact ⟨r, rest, by rw [hr, he], by simp [firstId, returned, he]⟩

theorem findRecordID_eq (c : dns.Client σ) (p : GoString) (w : World σ)
    (hrd : ∀ response,
      (c.client.DescribeDomainRecords (findRequest c p) w.remote).1 = Except.ok response →
      FirstReadable response) :
    dns.findRecordID c p w =
      (Ret.value (match (c.client.DescribeDomainRecords (findRequest c p) w.remote).1 with
        | Except.error err => Except.error err
        | Except.ok response => Except.ok (firstId response)),
       { remote := (c.client.DescribeDomainRecords (findRequest c p) w.remote).2,
         trace := w.trace ++ [Event.describe (findRequest c p)] }) := by
  unfold dns.findRecordID World.callDescribe
  simp only [findRequest] at hrd ⊢
  rcases h : (c.client.DescribeDomainRecords _ w.remote).1 with err | response
  · simp [h]
  · simp only [h]
    rcases firstId_of_readable response (hrd response h) with
      ⟨hr, hid⟩ | ⟨hr, hid⟩ | ⟨r, rest, hr, hid⟩
    · simp [hr, hid]
    · simp [hr, hid]
    · simp [hr, hid]

theorem DeleteDomainRecord_eq (c : dns.Client σ) (p ip : GoString) (w : World σ)
    (hrd : ∀ response,
      (c.client.DescribeDomainRecords (findRequest c p) w.remote).1 = Except.ok response →
      FirstReadable response) :
    dns.DeleteDomainRecord c p ip w =
      (Ret.value (deleteOutcome c p w).1, (deleteOutcome c p w).2) := by
  unfold dns.DeleteDomainRecord deleteOutcome
  simp only [findRecordID_eq c p w hrd]
  rcases h : (c.client.DescribeDomainRecords _ w.remote).1 with err | response
  · simp [h]
  · simp only [h]
    by_cases hp : firstId response = []
    · simp [hp, World.printf]
    · simp only [hp, World.callDelete, if_false]
      rcases ha : (c.client.DeleteDomainRecord _ _).1 with err | u
      · simp [ha]
      · simp [ha, World.printf]

theorem entries_answer (records : List alidns.Record) :
    entries (sim.answer records) = records.map some := rfl

theorem returned_answer (records : List alidns.Record) :
    returned (sim.answer records) = records := by
  unfold returned
  rw [entries_answer]
  induction records with
  | nil => rfl
  | cons r rest ih => simp

theorem wellFormed_answer (records : List alidns.Record) : WellFormed (sim.answer records) := by
  refine ⟨by simp [sim.answer], ?_⟩
  intro e he
  rw [entries_answer, List.mem_map] at he
  obtain ⟨r, _, rfl⟩ := he
  simp

theorem sim_wellFormedAnswers : WellFormedAnswers sim.handle := by
  intro req s response h
  have : response = sim.answer (s.records.filter (sim.answers req)) := by
    simp only [sim.handle, sim.describe] at h
    injection h with h
    exact h.symm
  rw [this]
  exact wellFormed_answer _

/-! ## Facts about the address parser -/

theorem parseIPv4Loop_length (s : GoString) :
    ∀ (prev : Option (Fin 256)) (fields : List (Fin 256)) (val digLen : Nat)
      (r : List (Fin 256)), fields.length ≤ 3 →
      netip.parseIPv4Loop s prev fields val digLen = some r → r.length = 4 := by
  induction s with
  | nil =>
    intro prev fields val digLen r hf h
    simp only [netip.parseIPv4Loop] at h
    split at h
    · cases h
    · injection h with h
      subst h
      simp
      omega
  | cons c rest ih =>
    intro prev fields val digLen r hf h
    simp only [netip.parseIPv4Loop] at h
    split at h
    · split at h
      · cases h
      · split at h
        · cases h
        · exact ih _ _ _ _ r hf h
    · split at h
      · split at h
        · cases h
        · split at h
          · cases h
          · refine ih _ _ _ _ r ?_ h
            simp
            omega
      · cases h

theorem parseIPv4Fields_length (s : GoString) (r : List (Fin 256))
    (h : netip.parseIPv4Fields s = some r) : r.length = 4 :=
  parseIPv4Loop_length s none [] 0 0 r (by simp) h

theorem parseIPv6Loop_inv (fuel : Nat) :
    ∀ (s : GoString) (ip : List (Fin 256)) (ellipsis : Option Nat)
      (r : GoString × List (Fin 256) × Option Nat),
      ip.length % 2 = 0 → ip.length ≤ 16 → (∀ e, ellipsis = some e → e ≤ ip.length) →
      netip.parseIPv6Loop fuel s ip ellipsis = some r →
      r.2.1.length ≤ 16 ∧ ∀ e, r.2.2 = some e → e ≤ r.2.1.length := by
  induction fuel with
  | zero =>
    intro s ip ellipsis r _ hle he h
    simp only [netip.parseIPv6Loop] at h
    injection h with h
    subst h
    exact ⟨hle, he⟩
  | succ fuel ih =>
    intro s ip ellipsis r hev hle he h
    simp only [netip.parseIPv6Loop] at h
    split at h
    · injection h with h
      subst h
      exact ⟨hle, he⟩
    · rename_i hlt
      have hlt : ip.length < 16 := by simpa using hlt
      split at h
      · cases h
      · rename_i off acc _
        split at h
        · cases h
        · split at h
          · split at h
            · cases h
            · split at h
              · cases h
              · rename_i h4
                split at h
                · cases h
                · rename_i ip4 hip4
                  injection h with h
                  subst h
                  have := parseIPv4Fields_length _ _ hip4
                  refine ⟨by simp; omega, ?_⟩
                  intro e hee
                  have := he e hee
                  simp
                  omega
          · have hlen : (ip ++ [byte (acc / 256), byte acc]).length = ip.length + 2 := by simp
            have hev1 : (ip ++ [byte (acc / 256), byte acc]).length % 2 = 0 := by
              rw [hlen]; omega
            have hle1 : (ip ++ [byte (acc / 256), byte acc]).length ≤ 16 := by
              rw [hlen]; omega
            split at h
            · injection h with h
              subst h
              refine ⟨hle1, ?_⟩
              intro e hee
              have := he e hee
              rw [hlen]; omega
            · split at h
              · cases h
              · split at h
                · cases h
                · split at h
                  · split at h
                    · cases h
                    · split at h
                      · injection h with h
                        subst h
                        refine ⟨hle1, ?_⟩
                        intro e hee
                        simp only [Option.some.injEq] at hee
                        subst hee
                        exact Nat.le_refl _
                      · refine ih _ _ _ r hev1 hle1 ?_ h
                        intro e hee
                        injection hee with hee
                        omega
                  · refine ih _ _ _ r hev1 hle1 ?_ h
                    intro e hee
                    have := he e hee
                    rw [hlen]; omega

theorem finishIPv6_spec (zone : GoString) (r : GoString × List (Fin 256) × Option Nat)
    (a : netip.Addr) (hle : r.2.1.length ≤ 16) (he : ∀ e, r.2.2 = some e → e ≤ r.2.1.length)
    (h : netip.finishIPv6 zone r = some a) : a.addr.length = 16 ∧ a.z = netip.Z.z6 zone := by
  unfold netip.finishIPv6 at h
  split at h
  · cases h
  · split at h
    · split at h
      · cases h
      · rename_i e hee
        injection h with h
        subst h
        have := he e hee
        simp
        omega
    · split at h
      · cases h
      · injection h with h
        subst h
        simp
        omega

theorem parseIPv6_spec (s : GoString) (a : netip.Addr) (h : netip.parseIPv6 s = some a) :
    a.addr.length = 16 ∧ ∃ zone, a.z = netip.Z.z6 zone := by
  unfold netip.parseIPv6 at h
  simp only at h
  split at h
  · cases h
  · split at h
    · injection h with h
      subst h
      simp
    · rw [Option.bind_eq_some] at h
      obtain ⟨r, hr, hf⟩ := h
      have hi := parseIPv6Loop_inv 8 _ [] (some 0) r (by simp) (by simp)
        (by intro e hee; injection hee with hee; simp; omega) hr
      have := finishIPv6_spec _ r a hi.1 hi.2 hf
      exact ⟨this.1, _, this.2⟩
    · rw [Option.bind_eq_some] at h
      obtain ⟨r, hr, hf⟩ := h
      have hi := parseIPv6Loop_inv 8 _ [] none r (by simp) (by simp)
        (by intro e hee; cases hee) hr
      have := finishIPv6_spec _ r a hi.1 hi.2 hf
      exact ⟨this.1, _, this.2⟩

theorem parseAddrScan_spec (s : GoString) (a : netip.Addr) :
    ∀ rest : GoString, netip.parseAddrScan s rest = some a →
      (∃ f, f.length = 4 ∧ a = netip.AddrFrom4 f) ∨
      (a.addr.length = 16 ∧ ∃ zone, a.z = netip.Z.z6 zone) := by
  intro rest
  induction rest with
  | nil => intro h; simp [netip.parseAddrScan] at h
  | cons c rest ih =>
    intro h
    simp only [netip.parseAddrScan] at h
    split at h
    · left
      unfold netip.parseIPv4 at h
      rw [Option.map_eq_some'] at h
      obtain ⟨f, hf, rfl⟩ := h
      exact ⟨f, parseIPv4Fields_length s f hf, rfl⟩
    · split at h
      · right
        exact parseIPv6_spec s a h
      · split at h
        · cases h
        · exact ih h


/-! ## Record type selection -/

theorem To4_AddrFrom4 (f : List (Fin 256)) (h : f.length = 4) :
    net.To4 (netip.AddrFrom4 f).As16 ≠ none := by
  match f, h with
  | [a, b, c, d], _ => simp [net.To4, netip.AddrFrom4, netip.Addr.As16]

theorem To4_eq_none_iff (ip : List (Fin 256)) (h : ip.length = 16) :
    net.To4 ip = none ↔ ip.take 12 ≠ [0, 0, 0, 0, 0, 0, 0, 0, 0, 0, 0xff, 0xff] := by
  match ip, h with
  | [a0, a1, a2, a3, a4, a5, a6, a7, a8, a9, a10, a11, a12, a13, a14, a15], _ =>
    simp [net.To4]

theorem recordTypeOf_parsed (s : GoString) (a : netip.Addr) (h : netip.ParseAddr s = some a) :
    dns.recordTypeOf a.As16 = if a.Is4 ∨ a.Is4In6 then str "A" else str "AAAA" := by
  rcases parseAddrScan_spec s a s h with ⟨f, hf, rfl⟩ | ⟨hlen, zone, hz⟩
  · have := To4_AddrFrom4 f hf
    simp only [dns.recordTypeOf, if_neg this]
    simp [netip.Addr.Is4, netip.AddrFrom4]
  · have h6 : a.Is6 = true := by simp [netip.Addr.Is6, hz]
    have h4 : a.Is4 = false := by simp [netip.Addr.Is4, hz]
    have := To4_eq_none_iff a.addr hlen
    by_cases hm : a.addr.take 12 = [0, 0, 0, 0, 0, 0, 0, 0, 0, 0, 0xff, 0xff]
    · have h1 : ¬ net.To4 a.addr = none := by rw [this]; simpa using hm
      simp [dns.recordTypeOf, netip.Addr.As16, h1, netip.Addr.Is4In6, h6, hm]
    · have h1 : net.To4 a.addr = none := by rw [this]; exact hm
      simp [dns.recordTypeOf, netip.Addr.As16, h1, netip.Addr.Is4In6, h6, h4, hm]

theorem selects_of_parse (c : dns.Client σ) (p ip : GoString) (w : World σ)
    (b : List (Fin 256)) (hb : net.ParseIP ip = some b)
    (hwf : WellFormedAnswers c.client) :
    SelectsType c p ip w (dns.recordTypeOf b) := by
  unfold SelectsType
  rw [AddDomainRecord_eq c p ip w b hb (fun response h => hwf _ _ response h)]
  simp only [addOutcome]
  rcases h : (c.client.DescribeDomainRecords (lookupRequest c p (dns.recordTypeOf b))
    w.remote).1 with err | response
  · simp [World.since, Event.sentType, lookupRequest]
  · simp only []
    by_cases hp : hasPair (returned response) p ip
    · simp [hp, World.since, Event.sentType, lookupRequest]
    · simp only [hp, if_false]
      rcases ha : (c.client.AddDomainRecord (createRequest c p (dns.recordTypeOf b) ip)
        (c.client.DescribeDomainRecords (lookupRequest c p (dns.recordTypeOf b))
          w.remote).2).1 with err | u
      · simp [World.since, Event.sentType, lookupRequest, createRequest]
      · simp [World.since, Event.sentType, lookupRequest, createRequest]

/-- Where the record type follows the family of the text: for a provider with
well-formed answers, every valid IPv4 text gets type `A` and every valid IPv6
text outside the IPv4-mapped block `::ffff:0:0/96` gets type `AAAA`, in the
lookup and in the create request; a text that is neither fails with the
invalid-IP error and nothing is sent or printed. -/
theorem recordType_outside_mapped_block (c : dns.Client σ) (domainPrefix ip : GoString)
    (w : World σ) (hwf : WellFormedAnswers c.client) :
    (ValidIPv4 ip = true → SelectsType c domainPrefix ip w (str "A")) ∧
    (ValidIPv6 ip = true → IPv4Mapped ip = false →
      SelectsType c domainPrefix ip w (str "AAAA")) ∧
    (ValidIPv4 ip = false → ValidIPv6 ip = false →
      dns.AddDomainRecord c domainPrefix ip w =
        (Ret.value (some (str "invalid IP address: " ++ ip)), w)) := by
  unfold ValidIPv4 ValidIPv6 IPv4Mapped
  rcases h : netip.ParseAddr ip with _ | a
  · simp [dns.AddDomainRecord, net.ParseIP, h]
  · have ht := recordTypeOf_parsed ip a h
    simp only []
    refine ⟨?_, ?_, ?_⟩
    · intro h4
      have hz : a.Zone = [] := by
        simp only [netip.Addr.Is4, decide_eq_true_eq] at h4
        simp [netip.Addr.Zone, h4]
      have hb : net.ParseIP ip = some a.As16 := by simp [net.ParseIP, h, hz]
      have := selects_of_parse c domainPrefix ip w _ hb hwf
      rw [ht] at this
      simpa [h4] using this
    · intro h6 hm
      have h6' : a.Is6 = true ∧ a.Zone = [] := by simpa using h6
      have hz : a.Zone = [] := h6'.2
      have h4 : a.Is4 = false := by
        have := h6'.1
        simp only [netip.Addr.Is6, netip.Addr.Is4] at this ⊢
        simpa using this
      have hb : net.ParseIP ip = some a.As16 := by simp [net.ParseIP, h, hz]
      have := selects_of_parse c domainPrefix ip w _ hb hwf
      rw [ht] at this
      simpa [hm, h4] using this
    · intro h4 h6
      have hz : a.Zone ≠ [] := by
        intro hz
        have h6a : a.Is6 = false := by simpa [hz] using h6
        simp only [netip.Addr.Is6, netip.Addr.Is4] at h6a h4
        simp at h6a h4
        exact h4 h6a
      simp [dns.AddDomainRecord, net.ParseIP, h, hz]

set_option maxRecDepth 100000 in
/-- C1 at a failing input: `::ffff:10.0.0.1` is a syntactically valid IPv6
address, so the claim says type `AAAA`. `net.ParseIP` reads it, `To4` of the
result is not nil, and `AddDomainRecord` sends the lookup and the create
request with type `A`, the create request carrying the IPv6 text as the value
of the `A` record. -/
theorem C1_ipv4_mapped_text_gets_type_A :
    ValidIPv6 (str "::ffff:10.0.0.1") = true ∧
    ¬ SelectsType sim.client (str "foo") (str "::ffff:10.0.0.1") (sim.world []) (str "AAAA") ∧
    (dns.AddDomainRecord sim.client (str "foo") (str "::ffff:10.0.0.1") (sim.world [])).1 =
      Ret.value none ∧
    (dns.AddDomainRecord sim.client (str "foo") (str "::ffff:10.0.0.1") (sim.world [])).2.trace =
      [Event.describe (lookupRequest sim.client (str "foo") (str "A")),
       Event.add (createRequest sim.client (str "foo") (str "A") (str "::ffff:10.0.0.1")),
       Event.stdout
         (str "Successfully added DNS record: foo.alaudatech.net -> ::ffff:10.0.0.1\n")] := by
  decide


/-! ## Listing -/

theorem listLoop_of_no_nil (l : List (Option alidns.Record)) (h : ∀ e ∈ l, e ≠ none) :
    dns.listLoop l = Ret.value ((l.filterMap id).map dns.toDomainRecord) := by
  induction l with
  | nil => rfl
  | cons e rest ih =>
    cases e with
    | none => exact absurd rfl (h none (by simp))
    | some r =>
      have ih1 := ih (fun e he => h e (by simp [he]))
      unfold dns.listLoop
      rw [ih1]
      rfl

/-- C5 (amended). On a successful answer to the list query that is well formed
(it has a body and no nil entry in its record slice), `ListAllDomainRecords`
returns no error and one row per record of the answer, in order, the row
carrying the identifier, relative name, type, value and status of its record
(an absent field reads as the empty string); an answer whose body has no
record list, or an empty one, gives the empty sequence. -/
theorem C5_list_one_row_per_record (c : dns.Client σ) (w : World σ)
    (response : alidns.DescribeDomainRecordsResponse)
    (h : (c.client.DescribeDomainRecords (listRequest c) w.remote).1 = Except.ok response)
    (hwf : WellFormed response) :
    ∃ rows, (dns.ListAllDomainRecords c w).1 = Ret.value (Except.ok rows) ∧
      rows.length = (returned response).length ∧
      (∀ (i : Nat) r, (returned response)[i]? = some r →
        ∃ row, rows[i]? = some row ∧ row.ID = StringValue r.RecordId ∧
          row.RR = StringValue r.RR ∧ row.Type_ = StringValue r.Type_ ∧
          row.Value = StringValue r.Value ∧ row.Status = StringValue r.Status) ∧
      (returned response = [] → rows = []) := by
  refine ⟨(returned response).map dns.toDomainRecord, ?_, by simp, ?_, ?_⟩
  · unfold dns.ListAllDomainRecords World.callDescribe
    simp only [listRequest] at h
    simp only [h]
    rcases responseRecords_of_body response hwf.1 with ⟨hr, he⟩ | hr
    · simp [hr, returned, he]
    · simp only [hr]
      rw [listLoop_of_no_nil _ hwf.2]
      rfl
  · intro i r hi
    refine ⟨dns.toDomainRecord r, ?_, rfl, rfl, rfl, rfl, rfl⟩
    simp [hi]
  · intro h0
    simp [h0]

/-- Witness of C5 (amended): the reference provider holding two records. -/
theorem C5_list_one_row_per_record_witness :
    ∃ rows, (dns.ListAllDomainRecords sim.client
        (sim.world [sim.record "1" "foo" "A" "10.0.0.1",
          sim.record "2" "bar" "AAAA" "2001:db8::1"])).1 = Ret.value (Except.ok rows) ∧
      rows.length = 2 :=
  (C5_list_one_row_per_record sim.client
      (sim.world [sim.record "1" "foo" "A" "10.0.0.1", sim.record "2" "bar" "AAAA" "2001:db8::1"])
      (sim.answer [sim.record "1" "foo" "A" "10.0.0.1", sim.record "2" "bar" "AAAA" "2001:db8::1"])
      (by decide) (by decide)).imp (fun _ hrows => ⟨hrows.1, hrows.2.1⟩)

/-- Counterexample to C5 as stated: the list query succeeds with a response
that has no body, hence no record list at all; `ListAllDomainRecords`
dereferences the nil body and panics instead of returning the empty
sequence. -/
theorem C5_counterexample_response_without_body :
    (sim.bodilessClient.client.DescribeDomainRecords (listRequest sim.bodilessClient)
      (sim.world []).remote).1 = Except.ok { Body := none } ∧
    dns.ListAllDomainRecords sim.bodilessClient (sim.world []) =
      (Ret.panic,
       { remote := (sim.world []).remote,
         trace := [Event.describe (listRequest sim.bodilessClient)] }) := by
  decide

/-! ## Errors of `AddDomainRecord` -/

/-- C6 (amended). For a provider whose successful lookups answer with a
well-formed response (a body, no nil entry), `AddDomainRecord` returns, and it
returns an error exactly when the text is not a valid IP address
(`net.ParseIP` gives `nil`), or the existence lookup fails, or the lookup
succeeds with no returned record matching prefix and value and the create
call fails; in every other case it returns `nil`. -/
theorem C6_add_error_iff (c : dns.Client σ) (domainPrefix ip : GoString) (w : World σ)
    (hwf : WellFormedAnswers c.client) :
    ((dns.AddDomainRecord c domainPrefix ip w).1 = Ret.value none ∨
      ∃ err, (dns.AddDomainRecord c domainPrefix ip w).1 = Ret.value (some err)) ∧
    ((∃ err, (dns.AddDomainRecord c domainPrefix ip w).1 = Ret.value (some err)) ↔
      (net.ParseIP ip = none ∨
       ∃ b, net.ParseIP ip = some b ∧
        ((∃ err, (c.client.DescribeDomainRecords
            (lookupRequest c domainPrefix (dns.recordTypeOf b)) w.remote).1 = Except.error err) ∨
         (∃ response err,
            (c.client.DescribeDomainRecords
              (lookupRequest c domainPrefix (dns.recordTypeOf b)) w.remote).1 = Except.ok response ∧
            ¬ hasPair (returned response) domainPrefix ip ∧
            (c.client.AddDomainRecord (createRequest c domainPrefix (dns.recordTypeOf b) ip)
              (c.client.DescribeDomainRecords
                (lookupRequest c domainPrefix (dns.recordTypeOf b)) w.remote).2).1 =
              Except.error err)))) := by
  rcases hb : net.ParseIP ip with _ | b
  · simp [dns.AddDomainRecord, hb]
  · rw [AddDomainRecord_eq c domainPrefix ip w b hb (fun response h => hwf _ _ response h)]
    refine ⟨?_, ?_⟩
    · cases (addOutcome c domainPrefix ip (dns.recordTypeOf b) w).1 with
      | none => exact Or.inl rfl
      | some err => exact Or.inr ⟨err, rfl⟩
    · simp only [addOutcome]
      constructor
      · rintro ⟨e, hne⟩
        refine Or.inr ⟨b, rfl, ?_⟩
        rcases h : (c.client.DescribeDomainRecords
          (lookupRequest c domainPrefix (dns.recordTypeOf b)) w.remote).1 with err | response
        · exact Or.inl ⟨err, rfl⟩
        · rw [h] at hne
          simp only [] at hne
          by_cases hp : hasPair (returned response) domainPrefix ip
          · simp [hp] at hne
          · simp only [hp, if_false] at hne
            rcases ha : (c.client.AddDomainRecord
              (createRequest c domainPrefix (dns.recordTypeOf b) ip)
              (c.client.DescribeDomainRecords (lookupRequest c domainPrefix (dns.recordTypeOf b))
                w.remote).2).1 with err | u
            · exact Or.inr ⟨response, err, rfl, hp, rfl⟩
            · rw [ha] at hne
              simp at hne
      · rintro (h0 | ⟨b1, hb1, hin⟩)
        · cases h0
        · cases hb1
          rcases hin with ⟨err, he⟩ | ⟨response, err, h1, hn, h2⟩
          · rw [he]
            exact ⟨_, rfl⟩
          · rw [h1]
            simp only [hn, if_false]
            rw [h2]
            exact ⟨_, rfl⟩

/-- Witness of C6 (amended): the reference provider; `foo` is absent, the
lookup and the create succeed, and `AddDomainRecord` returns without error. -/
theorem C6_add_error_iff_witness :
    (dns.AddDomainRecord sim.client (str "foo") (str "10.0.0.1") (sim.world [])).1 =
        Ret.value none ∨
      ∃ err, (dns.AddDomainRecord sim.client (str "foo") (str "10.0.0.1") (sim.world [])).1 =
        Ret.value (some err) :=
  (C6_add_error_iff sim.client (str "foo") (str "10.0.0.1") (sim.world [])
    sim_wellFormedAnswers).1

/-- Counterexample to C6 as stated: the IP text is valid and the existence
lookup does not fail, but its response has no body; `AddDomainRecord` neither
returns an error nor returns success, it panics in `checkRecordExists`. -/
theorem C6_counterexample_response_without_body :
    net.ParseIP (str "10.0.0.1") ≠ none ∧
    (sim.bodilessClient.client.DescribeDomainRecords
      (lookupRequest sim.bodilessClient (str "foo") (str "A")) (sim.world []).remote).1 =
      Except.ok { Body := none } ∧
    dns.AddDomainRecord sim.bodilessClient (str "foo") (str "10.0.0.1") (sim.world []) =
      (Ret.panic,
       { remote := (sim.world []).remote,
         trace := [Event.describe (lookupRequest sim.bodilessClient (str "foo") (str "A"))] }) := by
  decide


/-! ## Deleting -/

theorem firstReadable_of_head (response : alidns.DescribeDomainRecordsResponse)
    (r : alidns.Record) (rest : List (Option alidns.Record))
    (hr : entries response = some r :: rest) :
    FirstReadable response ∧ firstId response = StringValue r.RecordId := by
  refine ⟨⟨?_, by simp [hr]⟩, by simp [firstId, returned, hr]⟩
  intro hb
  have : entries response = [] := by simp [entries, dns.responseRecords, hb]
  rw [this] at hr
  cases hr

/-- C9 (amended). `DeleteDomainRecord` does not depend on its `ip` argument:
for the same prefix and world, two calls with different `ip` end the same way
and leave the same world (same provider calls, same output). When the
keyword lookup succeeds and the first returned record has a non-empty
identifier, exactly one delete call is issued and it targets that
identifier, whatever the record's value; when the first returned record's
identifier is empty or absent, no delete call is issued and the result is
`nil`. -/
theorem C9_delete_ignores_ip (c : dns.Client σ) (domainPrefix ip1 ip2 : GoString)
    (w : World σ) :
    dns.DeleteDomainRecord c domainPrefix ip1 w = dns.DeleteDomainRecord c domainPrefix ip2 w ∧
    (∀ response r rest,
      (c.client.DescribeDomainRecords (findRequest c domainPrefix) w.remote).1 =
        Except.ok response →
      entries response = some r :: rest →
      (StringValue r.RecordId ≠ [] →
        deletes ((dns.DeleteDomainRecord c domainPrefix ip1 w).2.since w) =
          [{ RecordId := some (StringValue r.RecordId) }]) ∧
      (StringValue r.RecordId = [] →
        deletes ((dns.DeleteDomainRecord c domainPrefix ip1 w).2.since w) = [] ∧
        (dns.DeleteDomainRecord c domainPrefix ip1 w).1 = Ret.value none)) := by
  refine ⟨rfl, ?_⟩
  intro response r rest h hr
  obtain ⟨hrd, hid⟩ := firstReadable_of_head response r rest hr
  have hall : ∀ response1,
      (c.client.DescribeDomainRecords (findRequest c domainPrefix) w.remote).1 =
        Except.ok response1 → FirstReadable response1 := by
    intro response1 h1
    rw [h] at h1
    injection h1 with h1
    exact h1 ▸ hrd
  rw [DeleteDomainRecord_eq c domainPrefix ip1 w hall]
  simp only [deleteOutcome, h]
  constructor
  · intro hne
    simp only [hid, hne, if_false]
    rcases hx : (c.client.DeleteDomainRecord { RecordId := some (StringValue r.RecordId) }
      (c.client.DescribeDomainRecords (findRequest c domainPrefix) w.remote).2).1 with err | u
    · simp [World.since, deletes]
    · simp [World.since, deletes]
  · intro he
    simp [hid, he, World.since, deletes]

/-- Witness of C9 (amended): the reference provider holding two records named
`foo` with different values; the delete call targets the first one. -/
theorem C9_delete_ignores_ip_witness :
    deletes ((dns.DeleteDomainRecord sim.client (str "foo") (str "10.0.0.2")
        (sim.world [sim.record "1" "foo" "A" "10.0.0.1",
          sim.record "2" "foo" "A" "10.0.0.2"])).2.since
        (sim.world [sim.record "1" "foo" "A" "10.0.0.1",
          sim.record "2" "foo" "A" "10.0.0.2"])) =
      [{ RecordId := some (str "1") }] :=
  ((C9_delete_ignores_ip sim.client (str "foo") (str "10.0.0.2") (str "10.0.0.1")
      (sim.world [sim.record "1" "foo" "A" "10.0.0.1", sim.record "2" "foo" "A" "10.0.0.2"])).2
    (sim.answer [sim.record "1" "foo" "A" "10.0.0.1", sim.record "2" "foo" "A" "10.0.0.2"])
    (sim.record "1" "foo" "A" "10.0.0.1") [some (sim.record "2" "foo" "A" "10.0.0.2")]
    (by decide) (by decide)).1 (by decide)

/-- Counterexample to C9 as stated: the keyword lookup returns one record, but
its identifier is absent, so `DeleteDomainRecord` reports that the domain does
not exist and issues no delete call. -/
theorem C9_counterexample_empty_identifier :
    (sim.describe (findRequest sim.client (str "foo"))
      (sim.world [sim.recordWithoutId]).remote).1 = Except.ok (sim.answer [sim.recordWithoutId]) ∧
    returned (sim.answer [sim.recordWithoutId]) = [sim.recordWithoutId] ∧
    deletes ((dns.DeleteDomainRecord sim.client (str "foo") (str "10.0.0.1")
        (sim.world [sim.recordWithoutId])).2.since (sim.world [sim.recordWithoutId])) = [] := by
  decide

/-! ## Adding twice -/

theorem pairCount_eq_zero (records : List alidns.Record) (p ip : GoString)
    (h : ¬ hasPair records p ip) : pairCount records p ip = 0 := by
  unfold pairCount
  rw [List.length_eq_zero, List.filter_eq_nil_iff]
  intro r hr hd
  exact h ⟨r, hr, by simpa using hd⟩

/-- C2. For a provider whose lookups and creates succeed (a lookup answering
with a well-formed response: a body, no nil entry) and whose lookups return a
created record, and a state holding no record with this prefix and value: the first `AddDomainRecord(prefix, ip)` returns `nil` and issues one
create call; the second returns `nil`, issues no create call and only reports
that the domain is already mapped; afterwards exactly one record with this
prefix and value is held. -/
theorem C2_add_twice_one_record (c : dns.Client σ) (view : σ → List alidns.Record)
    (domainPrefix ip : GoString) (w : World σ)
    (hprov : Dependable c.client view) (hip : net.ParseIP ip ≠ none)
    (hnone : ¬ hasPair (view w.remote) domainPrefix ip) :
    (dns.AddDomainRecord c domainPrefix ip w).1 = Ret.value none ∧
    (creates ((dns.AddDomainRecord c domainPrefix ip w).2.since w)).length = 1 ∧
    (dns.AddDomainRecord c domainPrefix ip (dns.AddDomainRecord c domainPrefix ip w).2).1 =
      Ret.value none ∧
    creates ((dns.AddDomainRecord c domainPrefix ip
      (dns.AddDomainRecord c domainPrefix ip w).2).2.since
        (dns.AddDomainRecord c domainPrefix ip w).2) = [] ∧
    Event.stdout (str "Domain \x27" ++ (domainPrefix ++ str "." ++ c.baseDomain) ++
        str "\x27 is already mapped to " ++ ip ++ str ", skipping\n") ∈
      (dns.AddDomainRecord c domainPrefix ip
        (dns.AddDomainRecord c domainPrefix ip w).2).2.since
          (dns.AddDomainRecord c domainPrefix ip w).2 ∧
    pairCount (view (dns.AddDomainRecord c domainPrefix ip
      (dns.AddDomainRecord c domainPrefix ip w).2).2.remote) domainPrefix ip = 1 := by
  obtain ⟨b, hb⟩ := Option.ne_none_iff_exists'.mp hip
  have hwf : ∀ (s : σ) (response : alidns.DescribeDomainRecordsResponse),
      (c.client.DescribeDomainRecords (lookupRequest c domainPrefix (dns.recordTypeOf b)) s).1 =
        Except.ok response → WellFormed response := by
    intro s response h
    obtain ⟨resp, hd, hw, _⟩ :=
      hprov.lookup_ok (lookupRequest c domainPrefix (dns.recordTypeOf b)) s
    rw [hd] at h
    injection h with h
    exact h ▸ hw
  obtain ⟨resp1, hd1, _, hsub1, _⟩ :=
    hprov.lookup_ok (lookupRequest c domainPrefix (dns.recordTypeOf b)) w.remote
  have hp1 : ¬ hasPair (returned resp1) domainPrefix ip := by
    rintro ⟨r, hr, hrr⟩
    exact hnone ⟨r, hsub1 r hr, hrr⟩
  obtain ⟨s1, r, ha, hview, hrr, hrt, hrv⟩ :=
    hprov.create_ok (createRequest c domainPrefix (dns.recordTypeOf b) ip) w.remote
  have first : dns.AddDomainRecord c domainPrefix ip w =
      (Ret.value none, { remote := s1, trace := w.trace ++
        [Event.describe (lookupRequest c domainPrefix (dns.recordTypeOf b)),
         Event.add (createRequest c domainPrefix (dns.recordTypeOf b) ip),
         Event.stdout (str "Successfully added DNS record: " ++
           (domainPrefix ++ str "." ++ c.baseDomain) ++ str " -> " ++ ip ++ str "\n")] }) := by
    rw [AddDomainRecord_eq c domainPrefix ip w b hb (hwf w.remote)]
    simp only [addOutcome, hd1, hp1, if_false, ha]
  obtain ⟨resp2, hd2, _, _, hfind2⟩ :=
    hprov.lookup_ok (lookupRequest c domainPrefix (dns.recordTypeOf b)) s1
  have hmem : r ∈ returned resp2 := by
    apply hfind2 r
    · rw [hview]; simp
    · rw [hrr]; rfl
    · rw [hrt]; rfl
  have hp2 : hasPair (returned resp2) domainPrefix ip :=
    ⟨r, hmem, by rw [hrr]; rfl, by rw [hrv]; rfl⟩
  rw [first]
  have second : dns.AddDomainRecord c domainPrefix ip
      { remote := s1, trace := w.trace ++
        [Event.describe (lookupRequest c domainPrefix (dns.recordTypeOf b)),
         Event.add (createRequest c domainPrefix (dns.recordTypeOf b) ip),
         Event.stdout (str "Successfully added DNS record: " ++
           (domainPrefix ++ str "." ++ c.baseDomain) ++ str " -> " ++ ip ++ str "\n")] } =
      (Ret.value none, { remote := s1, trace := (w.trace ++
        [Event.describe (lookupRequest c domainPrefix (dns.recordTypeOf b)),
         Event.add (createRequest c domainPrefix (dns.recordTypeOf b) ip),
         Event.stdout (str "Successfully added DNS record: " ++
           (domainPrefix ++ str "." ++ c.baseDomain) ++ str " -> " ++ ip ++ str "\n")]) ++
        [Event.describe (lookupRequest c domainPrefix (dns.recordTypeOf b)),
         Event.stdout (str "Domain \x27" ++ (domainPrefix ++ str "." ++ c.baseDomain) ++
           str "\x27 is already mapped to " ++ ip ++ str ", skipping\n")] }) := by
    rw [AddDomainRecord_eq c domainPrefix ip _ b hb (hwf s1)]
    simp only [addOutcome, hd2, hp2, if_true]
  simp only [second]
  refine ⟨trivial, ?_, trivial, ?_, ?_, ?_⟩
  · simp [World.since, creates]
  · simp [World.since, creates]
  · simp [World.since]
  · simp only [hview]
    have h0 := pairCount_eq_zero (view w.remote) domainPrefix ip hnone
    unfold pairCount at h0 ⊢
    rw [List.filter_append, List.length_append, h0]
    have hrr1 : r.RR = some domainPrefix := hrr
    have hrv1 : r.Value = some ip := hrv
    simp [List.filter, hrr1, hrv1, StringValue]

theorem isPrefixOf_self (l : GoString) : l.isPrefixOf l = true := by
  induction l with
  | nil => rfl
  | cons a l ih => simp [List.isPrefixOf, ih]

theorem keywordMatch_self (s : GoString) : sim.keywordMatch s s = true := by
  cases s with
  | nil => rfl
  | cons a l => simp [sim.keywordMatch, isPrefixOf_self]

theorem sim_dependable : Dependable sim.handle (fun z => z.records) := by
  constructor
  · intro req s
    refine ⟨sim.answer (s.records.filter (sim.answers req)), rfl, wellFormed_answer _, ?_, ?_⟩
    · intro r hr
      rw [returned_answer] at hr
      exact (List.mem_filter.mp hr).1
    · intro r hr hrr hrt
      rw [returned_answer]
      refine List.mem_filter.mpr ⟨hr, ?_⟩
      unfold sim.answers
      rw [← hrr, ← hrt]
      cases r.RR <;> cases r.Type_ <;> simp [StringValue, keywordMatch_self]
  · intro req s
    exact ⟨_, _, rfl, rfl, rfl, rfl, rfl⟩

/-- Witness of C2: the reference provider holding only a record `foobar` with
the same value; `foo` is added twice. -/
theorem C2_add_twice_one_record_witness :
    (dns.AddDomainRecord sim.client (str "foo") (str "10.0.0.1")
      (dns.AddDomainRecord sim.client (str "foo") (str "10.0.0.1")
        (sim.world [sim.record "7" "foobar" "A" "10.0.0.1"])).2).1 = Ret.value none ∧
    pairCount (dns.AddDomainRecord sim.client (str "foo") (str "10.0.0.1")
      (dns.AddDomainRecord sim.client (str "foo") (str "10.0.0.1")
        (sim.world [sim.record "7" "foobar" "A" "10.0.0.1"])).2).2.remote.records
      (str "foo") (str "10.0.0.1") = 1 :=
  ⟨(C2_add_twice_one_record sim.client (fun z => z.records) (str "foo") (str "10.0.0.1")
      (sim.world [sim.record "7" "foobar" "A" "10.0.0.1"]) sim_dependable
      (by decide) (by decide)).2.2.1,
   (C2_add_twice_one_record sim.client (fun z => z.records) (str "foo") (str "10.0.0.1")
      (sim.world [sim.record "7" "foobar" "A" "10.0.0.1"]) sim_dependable
      (by decide) (by decide)).2.2.2.2.2⟩

/-! ## Deleting a name that is not there -/

/-- When the keyword lookup succeeds with a well-formed response that carries
no record, `DeleteDomainRecord` returns `nil`, issues no delete call and
reports that the domain does not exist. -/
theorem delete_nothing_when_lookup_empty (c : dns.Client σ) (domainPrefix ip : GoString)
    (w : World σ) (response : alidns.DescribeDomainRecordsResponse)
    (h : (c.client.DescribeDomainRecords (findRequest c domainPrefix) w.remote).1 =
      Except.ok response)
    (hwf : WellFormed response) (hempty : returned response = []) :
    (dns.DeleteDomainRecord c domainPrefix ip w).1 = Ret.value none ∧
    (dns.DeleteDomainRecord c domainPrefix ip w).2.since w =
      [Event.describe (findRequest c domainPrefix),
       Event.stdout (str "Domain \x27" ++ (domainPrefix ++ str "." ++ c.baseDomain) ++
         str "\x27 does not exist, no cleanup needed\n")] := by
  have hid : firstId response = [] := by simp [firstId, hempty]
  have hall : ∀ response1,
      (c.client.DescribeDomainRecords (findRequest c domainPrefix) w.remote).1 =
        Except.ok response1 → FirstReadable response1 := by
    intro response1 h1
    rw [h] at h1
    injection h1 with h1
    exact h1 ▸ firstReadable_of_wellFormed response hwf
  rw [DeleteDomainRecord_eq c domainPrefix ip w hall]
  simp [deleteOutcome, h, hid, World.since]

/-- C3 at a failing input. The zone holds one record, named `foobar`; no
record is named `foo`. The keyword lookup for `foo` returns the `foobar`
record, and `DeleteDomainRecord("foo", "10.0.0.1")` issues a delete call for
its identifier, reports success for `foo.alaudatech.net`, and the zone is left
empty. -/
theorem C3_delete_removes_other_name :
    (∀ r ∈ [sim.record "7" "foobar" "A" "10.0.0.2"], StringValue r.RR ≠ str "foo") ∧
    dns.DeleteDomainRecord sim.client (str "foo") (str "10.0.0.1")
        (sim.world [sim.record "7" "foobar" "A" "10.0.0.2"]) =
      (Ret.value none,
       { remote := { records := [], nextId := 1 },
         trace := [Event.describe (findRequest sim.client (str "foo")),
           Event.delete { RecordId := some (str "7") },
           Event.stdout (str "Successfully deleted DNS record: foo.alaudatech.net (ID: 7)\n")] }) := by
  decide


/-! ## Cleanup -/

theorem cleanupOne_eq (c : dns.Client σ) (p : GoString) (w : World σ)
    (hrd : ∀ response,
      (c.client.DescribeDomainRecords (findRequest c p) w.remote).1 = Except.ok response →
      FirstReadable response) :
    dns.cleanupOne c p w =
      (Ret.value (),
       { remote := cleanupRemote c p w.remote,
         trace := w.trace ++ cleanupEvents c p w.remote }) := by
  unfold dns.cleanupOne cleanupRemote cleanupEvents
  simp only [findRecordID_eq c p w hrd]
  rcases h : (c.client.DescribeDomainRecords (findRequest c p) w.remote).1 with err | response
  · simp [World.eprintf]
  · simp only []
    by_cases hid : firstId response = []
    · simp [hid, World.printf]
    · simp only [hid, if_false, World.callDelete]
      rcases hx : (c.client.DeleteDomainRecord { RecordId := some (firstId response) }
        (c.client.DescribeDomainRecords (findRequest c p) w.remote).2).1 with err | u
      · simp [World.eprintf]
      · simp [World.printf]

theorem cleanupEvents_calls (c : dns.Client σ) (p : GoString) (rest : List GoString) (s : σ) :
    (cleanupEvents c p s).filter Event.isCall ++ cleanupCalls c rest (cleanupRemote c p s) =
        cleanupCalls c (p :: rest) s ∧
      lookups (cleanupEvents c p s) = [findRequest c p] := by
  unfold cleanupRemote cleanupEvents
  simp only [cleanupCalls]
  rcases h : (c.client.DescribeDomainRecords (findRequest c p) s).1 with err | response
  · simp [Event.isCall, lookups]
  · simp only []
    by_cases hid : firstId response = []
    · simp [hid, Event.isCall, lookups]
    · simp only [hid, if_false]
      rcases hx : (c.client.DeleteDomainRecord { RecordId := some (firstId response) }
        (c.client.DescribeDomainRecords (findRequest c p) s).2).1 with err | u
      · simp [Event.isCall, lookups]
      · simp [Event.isCall, lookups]

theorem cleanupLoop_trace (c : dns.Client σ) (hwf : WellFormedAnswers c.client)
    (ps : List GoString) :
    ∀ w : World σ, (dns.cleanupLoop c ps w).1 = Ret.value () ∧
      ∃ es, (dns.cleanupLoop c ps w).2.trace = w.trace ++ es ∧
        es.filter Event.isCall = cleanupCalls c ps w.remote ∧
        lookups es = ps.map (findRequest c) := by
  induction ps with
  | nil =>
    intro w
    exact ⟨rfl, [], by simp [dns.cleanupLoop], by simp [cleanupCalls], by simp [lookups]⟩
  | cons p rest ih =>
    intro w
    obtain ⟨hc1, hl1⟩ := cleanupEvents_calls c p rest w.remote
    have hone := cleanupOne_eq c p w
      (fun response h => firstReadable_of_wellFormed response (hwf _ _ response h))
    obtain ⟨hv2, es2, ht2, hc2, hl2⟩ := ih
      { remote := cleanupRemote c p w.remote, trace := w.trace ++ cleanupEvents c p w.remote }
    have hstep : dns.cleanupLoop c (p :: rest) w = dns.cleanupLoop c rest
        { remote := cleanupRemote c p w.remote,
          trace := w.trace ++ cleanupEvents c p w.remote } := by
      rw [dns.cleanupLoop, hone]
    rw [hstep]
    refine ⟨hv2, cleanupEvents c p w.remote ++ es2, ?_, ?_, ?_⟩
    · rw [ht2]
      simp
    · rw [List.filter_append, hc2, hc1]
    · unfold lookups at hl1 hl2 ⊢
      rw [List.filterMap_append, hl1, hl2]
      rfl

/-- C4 (amended). For a provider whose successful lookups answer with a
well-formed response (a body, no nil entry), whatever lookups and deletes
fail: `CleanupDomainRecords` returns `nil` for every list of prefixes, sends
exactly one lookup per prefix, in list order, and its provider calls are
exactly the prescribed ones: for each prefix in turn the lookup, then the
delete of the found identifier when the lookup found one, whatever failed for
the prefixes before it. -/
theorem C4_cleanup_continues (c : dns.Client σ) (domainPrefixes : List GoString)
    (w : World σ) (hwf : WellFormedAnswers c.client) :
    (dns.CleanupDomainRecords c domainPrefixes w).1 = Ret.value none ∧
    lookups ((dns.CleanupDomainRecords c domainPrefixes w).2.since w) =
      domainPrefixes.map (findRequest c) ∧
    ((dns.CleanupDomainRecords c domainPrefixes w).2.since w).filter Event.isCall =
      cleanupCalls c domainPrefixes w.remote := by
  obtain ⟨hv, es, ht, hc, hl⟩ := cleanupLoop_trace c hwf domainPrefixes
    (w.printf (str "Cleaning up " ++ fmtNat domainPrefixes.length ++
      str " specified domain(s)...\n"))
  rcases hres : dns.cleanupLoop c domainPrefixes
    (w.printf (str "Cleaning up " ++ fmtNat domainPrefixes.length ++
      str " specified domain(s)...\n")) with ⟨r, w1⟩
  rw [hres] at hv ht
  simp only [] at hv ht
  subst hv
  have hcl : dns.CleanupDomainRecords c domainPrefixes w = (Ret.value none, w1) := by
    simp only [dns.CleanupDomainRecords, hres]
  have hs : (dns.CleanupDomainRecords c domainPrefixes w).2.since w =
      Event.stdout (str "Cleaning up " ++ fmtNat domainPrefixes.length ++
        str " specified domain(s)...\n") :: es := by
    rw [hcl]
    simp only [World.since, ht]
    simp [World.printf]
  refine ⟨by rw [hcl], ?_, ?_⟩
  · rw [hs]
    simpa [lookups] using hl
  · rw [hs]
    simpa [Event.isCall, World.printf] using hc

/-- Witness of C4 (amended): the reference provider holding `foo`; cleanup of
`foo` and `bar` looks both up and deletes `foo`. -/
theorem C4_cleanup_continues_witness :
    (dns.CleanupDomainRecords sim.client [str "foo", str "bar"]
      (sim.world [sim.record "1" "foo" "A" "10.0.0.1"])).1 = Ret.value none ∧
    lookups ((dns.CleanupDomainRecords sim.client [str "foo", str "bar"]
      (sim.world [sim.record "1" "foo" "A" "10.0.0.1"])).2.since
        (sim.world [sim.record "1" "foo" "A" "10.0.0.1"])) =
      [findRequest sim.client (str "foo"), findRequest sim.client (str "bar")] :=
  ⟨(C4_cleanup_continues sim.client [str "foo", str "bar"]
      (sim.world [sim.record "1" "foo" "A" "10.0.0.1"]) sim_wellFormedAnswers).1,
   (C4_cleanup_continues sim.client [str "foo", str "bar"]
      (sim.world [sim.record "1" "foo" "A" "10.0.0.1"]) sim_wellFormedAnswers).2.1⟩

/-- Counterexample to C4 as stated: the lookup for the first prefix succeeds
with a response that has no body; `findRecordID` dereferences the nil body,
`CleanupDomainRecords` panics and the second prefix is never looked up. -/
theorem C4_counterexample_response_without_body :
    dns.CleanupDomainRecords sim.bodilessClient [str "a", str "b"] (sim.world []) =
      (Ret.panic,
       { remote := (sim.world []).remote,
         trace := [Event.stdout (str "Cleaning up 2 specified domain(s)...\n"),
           Event.describe (findRequest sim.bodilessClient (str "a"))] }) ∧
    lookups ((dns.CleanupDomainRecords sim.bodilessClient [str "a", str "b"]
      (sim.world [])).2.since (sim.world [])) ≠
      [str "a", str "b"].map (findRequest sim.bodilessClient) := by
  decide


/-! ## The `add` and `delete` commands -/

theorem addOutcome_trace (c : dns.Client σ) (p ip t : GoString) (w : World σ) :
    ∃ es, (addOutcome c p ip t w).2.trace = w.trace ++ es ∧
      lookups es = [lookupRequest c p t] ∧
      (reports es).length + (if (addOutcome c p ip t w).1 = none then 0 else 1) = 1 := by
  simp only [addOutcome]
  rcases h : (c.client.DescribeDomainRecords (lookupRequest c p t) w.remote).1
    with err | response
  · exact ⟨_, rfl, by simp [lookups], by simp [reports, Event.isCall]⟩
  · simp only []
    by_cases hp : hasPair (returned response) p ip
    · simp only [hp, if_true]
      exact ⟨_, rfl, by simp [lookups], by simp [reports, Event.isCall]⟩
    · simp only [hp, if_false]
      rcases ha : (c.client.AddDomainRecord (createRequest c p t ip)
        (c.client.DescribeDomainRecords (lookupRequest c p t) w.remote).2).1 with err | u
      · exact ⟨_, rfl, by simp [lookups], by simp [reports, Event.isCall]⟩
      · exact ⟨_, rfl, by simp [lookups], by simp [reports, Event.isCall]⟩

theorem deleteOutcome_trace (c : dns.Client σ) (p : GoString) (w : World σ) :
    ∃ es, (deleteOutcome c p w).2.trace = w.trace ++ es ∧
      lookups es = [findRequest c p] ∧
      (reports es).length + (if (deleteOutcome c p w).1 = none then 0 else 1) = 1 := by
  simp only [deleteOutcome]
  rcases h : (c.client.DescribeDomainRecords (findRequest c p) w.remote).1
    with err | response
  · exact ⟨_, rfl, by simp [lookups], by simp [reports, Event.isCall]⟩
  · simp only []
    by_cases hp : firstId response = []
    · simp only [hp, if_true]
      exact ⟨_, rfl, by simp [lookups], by simp [reports, Event.isCall]⟩
    · simp only [hp, if_false]
      rcases ha : (c.client.DeleteDomainRecord { RecordId := some (firstId response) }
        (c.client.DescribeDomainRecords (findRequest c p) w.remote).2).1 with err | u
      · exact ⟨_, rfl, by simp [lookups], by simp [reports, Event.isCall]⟩
      · exact ⟨_, rfl, by simp [lookups], by simp [reports, Event.isCall]⟩

theorem runAddLoop_trace (client : dns.Client σ) (hwf : WellFormedAnswers client.client)
    (ip : GoString) (b : List (Fin 256))
    (hb : net.ParseIP ip = some b) (ps : List GoString) :
    ∀ w : World σ, (cmd.runAddLoop client ip ps w).1 = Ret.value () ∧
      ∃ es, (cmd.runAddLoop client ip ps w).2.trace = w.trace ++ es ∧
        lookups es = ps.map (fun p => lookupRequest client p (dns.recordTypeOf b)) ∧
        (reports es).length = ps.length := by
  induction ps with
  | nil =>
    intro w
    exact ⟨rfl, [], by simp [cmd.runAddLoop], by simp [lookups], by simp [reports]⟩
  | cons p rest ih =>
    intro w
    obtain ⟨es1, ht1, hl1, hr1⟩ := addOutcome_trace client p ip (dns.recordTypeOf b) w
    have hadd := AddDomainRecord_eq client p ip w b hb (fun response h => hwf _ _ response h)
    rcases hres : addOutcome client p ip (dns.recordTypeOf b) w with ⟨e, w1⟩
    rw [hres] at ht1 hr1 hadd
    simp only [] at ht1 hr1 hadd
    cases e with
    | none =>
      obtain ⟨hv2, es2, ht2, hl2, hr2⟩ := ih w1
      have hstep : cmd.runAddLoop client ip (p :: rest) w = cmd.runAddLoop client ip rest w1 := by
        rw [cmd.runAddLoop, hadd]
      rw [hstep]
      refine ⟨hv2, es1 ++ es2, ?_, ?_, ?_⟩
      · simp only [ht2, ht1, List.append_assoc]
      · unfold lookups at hl1 hl2 ⊢
        rw [List.filterMap_append, hl1, hl2]; rfl
      · unfold reports at hr1 hr2 ⊢
        rw [List.filter_append, List.length_append, hr2, List.length_cons]
        simp only [if_true] at hr1
        omega
    | some err =>
      obtain ⟨hv2, es2, ht2, hl2, hr2⟩ := ih
        (w1.eprintf (str "Failed to add " ++ p ++ str ": " ++ err ++ str "\n"))
      have hstep : cmd.runAddLoop client ip (p :: rest) w = cmd.runAddLoop client ip rest
          (w1.eprintf (str "Failed to add " ++ p ++ str ": " ++ err ++ str "\n")) := by
        rw [cmd.runAddLoop, hadd]
      rw [hstep]
      refine ⟨hv2, es1 ++ Event.stderr (str "Failed to add " ++ p ++ str ": " ++ err ++
        str "\n") :: es2, ?_, ?_, ?_⟩
      · rw [ht2]
        simp [World.eprintf, ht1]
      · unfold lookups at hl1 hl2 ⊢
        rw [List.filterMap_append, hl1, List.filterMap_cons, hl2]; rfl
      · unfold reports at hr1 hr2 ⊢
        rw [List.filter_append, List.length_append]
        have hst : ∀ text, (Event.stderr text).isCall = false := fun _ => rfl
        simp only [List.filter_cons, hst, Bool.not_false, if_true, List.length_cons, hr2]
        have hr0 : (List.filter (fun e => !e.isCall) es1).length = 0 := by
          simp only [reduceCtorEq, if_false] at hr1
          omega
        rw [hr0]
        omega

theorem runDeleteLoop_trace (client : dns.Client σ) (hwf : WellFormedAnswers client.client)
    (ip : GoString) (ps : List GoString) :
    ∀ w : World σ, (cmd.runDeleteLoop client ip ps w).1 = Ret.value () ∧
      ∃ es, (cmd.runDeleteLoop client ip ps w).2.trace = w.trace ++ es ∧
        lookups es = ps.map (findRequest client) ∧ (reports es).length = ps.length := by
  induction ps with
  | nil =>
    intro w
    exact ⟨rfl, [], by simp [cmd.runDeleteLoop], by simp [lookups], by simp [reports]⟩
  | cons p rest ih =>
    intro w
    obtain ⟨es1, ht1, hl1, hr1⟩ := deleteOutcome_trace client p w
    have hdel := DeleteDomainRecord_eq client p ip w
      (fun response h => firstReadable_of_wellFormed response (hwf _ _ response h))
    rcases hres : deleteOutcome client p w with ⟨e, w1⟩
    rw [hres] at ht1 hr1 hdel
    simp only [] at ht1 hr1 hdel
    cases e with
    | none =>
      obtain ⟨hv2, es2, ht2, hl2, hr2⟩ := ih w1
      have hstep : cmd.runDeleteLoop client ip (p :: rest) w =
          cmd.runDeleteLoop client ip rest w1 := by
        rw [cmd.runDeleteLoop, hdel]
      rw [hstep]
      refine ⟨hv2, es1 ++ es2, ?_, ?_, ?_⟩
      · simp only [ht2, ht1, List.append_assoc]
      · unfold lookups at hl1 hl2 ⊢
        rw [List.filterMap_append, hl1, hl2]; rfl
      · unfold reports at hr1 hr2 ⊢
        rw [List.filter_append, List.length_append, hr2, List.length_cons]
        simp only [if_true] at hr1
        omega
    | some err =>
      obtain ⟨hv2, es2, ht2, hl2, hr2⟩ := ih
        (w1.eprintf (str "Failed to delete " ++ p ++ str ": " ++ err ++ str "\n"))
      have hstep : cmd.runDeleteLoop client ip (p :: rest) w = cmd.runDeleteLoop client ip rest
          (w1.eprintf (str "Failed to delete " ++ p ++ str ": " ++ err ++ str "\n")) := by
        rw [cmd.runDeleteLoop, hdel]
      rw [hstep]
      refine ⟨hv2, es1 ++ Event.stderr (str "Failed to delete " ++ p ++ str ": " ++ err ++
        str "\n") :: es2, ?_, ?_, ?_⟩
      · rw [ht2]
        simp [World.eprintf, ht1]
      · unfold lookups at hl1 hl2 ⊢
        rw [List.filterMap_append, hl1, List.filterMap_cons, hl2]; rfl
      · unfold reports at hr1 hr2 ⊢
        rw [List.filter_append, List.length_append]
        have hst : ∀ text, (Event.stderr text).isCall = false := fun _ => rfl
        simp only [List.filter_cons, hst, Bool.not_false, if_true, List.length_cons, hr2]
        have hr0 : (List.filter (fun e => !e.isCall) es1).length = 0 := by
          simp only [reduceCtorEq, if_false] at hr1
          omega
        rw [hr0]
        omega

theorem runAddLoop_invalid (client : dns.Client σ) (ip : GoString)
    (hb : net.ParseIP ip = none) (ps : List GoString) :
    ∀ w : World σ, cmd.runAddLoop client ip ps w =
      (Ret.value (),
       { remote := w.remote, trace := w.trace ++ ps.map (fun p => invalidIPLine p ip) }) := by
  induction ps with
  | nil => intro w; simp [cmd.runAddLoop]
  | cons p rest ih =>
    intro w
    simp only [cmd.runAddLoop, dns.AddDomainRecord, hb, ih]
    simp [World.eprintf, invalidIPLine]

theorem reports_invalid (ip : GoString) (ps : List GoString) :
    (reports (ps.map (fun p => invalidIPLine p ip))).length = ps.length := by
  induction ps with
  | nil => rfl
  | cons p rest ih =>
    unfold reports at ih ⊢
    rw [List.map_cons, List.filter_cons]
    have hst : (invalidIPLine p ip).isCall = false := rfl
    simp only [hst, Bool.not_false, if_true, List.length_cons, ih]

/-- C7 (amended). Once the client is constructed, and for a provider whose
successful lookups answer with a well-formed response (a body, no nil entry),
`runAdd` and `runDelete` return `nil` and handle every prefix of the list, in
order, whatever happened to the prefixes before it: `runDelete` sends exactly
one lookup per prefix; `runAdd` sends exactly one existence lookup per prefix
when the IP text is valid and writes exactly one invalid-IP line per prefix
(and sends nothing) when it is not; either command writes exactly one report
line per prefix. In the example `add --domains=foo,bar --ip=10.0.0.1` on a
zone with no record named `foo` or `bar` (it holds `foobar`), the create
calls are exactly two, for `foo` and for `bar`, each with type `A` and value
`10.0.0.1`. -/
theorem C7_commands_visit_all_prefixes
    (sdkNewClient : openapi.Config → Except GoString (alidns.Client σ))
    (flags : cmd.Flags) (client : dns.Client σ) (w : World σ)
    (hc : cmd.createClient sdkNewClient flags = Except.ok client)
    (hwf : WellFormedAnswers client.client) :
    (cmd.runAdd sdkNewClient flags w).1 = Ret.value none ∧
    (cmd.runDelete sdkNewClient flags w).1 = Ret.value none ∧
    (∀ b, net.ParseIP flags.ipAddr = some b →
      lookups ((cmd.runAdd sdkNewClient flags w).2.since w) =
        flags.domainPrefixes.map (fun p => lookupRequest client p (dns.recordTypeOf b))) ∧
    (net.ParseIP flags.ipAddr = none →
      (cmd.runAdd sdkNewClient flags w).2.since w =
        flags.domainPrefixes.map (fun p => invalidIPLine p flags.ipAddr)) ∧
    (reports ((cmd.runAdd sdkNewClient flags w).2.since w)).length =
      flags.domainPrefixes.length ∧
    lookups ((cmd.runDelete sdkNewClient flags w).2.since w) =
      flags.domainPrefixes.map (findRequest client) ∧
    (reports ((cmd.runDelete sdkNewClient flags w).2.since w)).length =
      flags.domainPrefixes.length ∧
    creates ((cmd.runAdd sim.newClient sim.exampleFlags
        (sim.world [sim.record "7" "foobar" "A" "10.0.0.1"])).2.since
        (sim.world [sim.record "7" "foobar" "A" "10.0.0.1"])) =
      [createRequest sim.client (str "foo") (str "A") (str "10.0.0.1"),
       createRequest sim.client (str "bar") (str "A") (str "10.0.0.1")] := by
  obtain ⟨hvd, esd, htd, hld, hrd⟩ :=
    runDeleteLoop_trace client hwf flags.ipAddr flags.domainPrefixes w
  have hdel : cmd.runDelete sdkNewClient flags w =
      (Ret.value none, (cmd.runDeleteLoop client flags.ipAddr flags.domainPrefixes w).2) := by
    rcases hres : cmd.runDeleteLoop client flags.ipAddr flags.domainPrefixes w with ⟨r, w1⟩
    rw [hres] at hvd
    simp only [] at hvd
    subst hvd
    simp [cmd.runDelete, hc, hres]
  have haddv : (cmd.runAddLoop client flags.ipAddr flags.domainPrefixes w).1 = Ret.value () := by
    rcases hb : net.ParseIP flags.ipAddr with _ | b
    · rw [runAddLoop_invalid client flags.ipAddr hb]
    · exact (runAddLoop_trace client hwf flags.ipAddr b hb flags.domainPrefixes w).1
  have hadd : cmd.runAdd sdkNewClient flags w =
      (Ret.value none, (cmd.runAddLoop client flags.ipAddr flags.domainPrefixes w).2) := by
    rcases hres : cmd.runAddLoop client flags.ipAddr flags.domainPrefixes w with ⟨r, w1⟩
    rw [hres] at haddv
    simp only [] at haddv
    subst haddv
    simp [cmd.runAdd, hc, hres]
  have hinv : net.ParseIP flags.ipAddr = none →
      (cmd.runAddLoop client flags.ipAddr flags.domainPrefixes w).2.trace =
        w.trace ++ flags.domainPrefixes.map (fun p => invalidIPLine p flags.ipAddr) := by
    intro hb
    rw [runAddLoop_invalid client flags.ipAddr hb]
  rw [hadd, hdel]
  refine ⟨rfl, rfl, ?_, ?_, ?_, ?_, ?_, by decide⟩
  · intro b hb
    obtain ⟨_, es, ht, hl, _⟩ :=
      runAddLoop_trace client hwf flags.ipAddr b hb flags.domainPrefixes w
    simpa [World.since, ht] using hl
  · intro hb
    simp [World.since, hinv hb]
  · rcases hb : net.ParseIP flags.ipAddr with _ | b
    · simp only [World.since, hinv hb, List.drop_left]
      exact reports_invalid flags.ipAddr flags.domainPrefixes
    · obtain ⟨_, es, ht, _, hr⟩ :=
        runAddLoop_trace client hwf flags.ipAddr b hb flags.domainPrefixes w
      simpa [World.since, ht] using hr
  · simpa [World.since, htd] using hld
  · simpa [World.since, htd] using hrd

/-- Witness of C7 (amended): the reference provider and the flags of the
end-to-end example. -/
theorem C7_commands_visit_all_prefixes_witness :
    (cmd.runAdd sim.newClient sim.exampleFlags (sim.world [])).1 = Ret.value none ∧
    lookups ((cmd.runDelete sim.newClient sim.exampleFlags (sim.world [])).2.since
      (sim.world [])) = [findRequest sim.client (str "foo"), findRequest sim.client (str "bar")] :=
  ⟨(C7_commands_visit_all_prefixes sim.newClient sim.exampleFlags sim.client (sim.world [])
      rfl sim_wellFormedAnswers).1,
   (C7_commands_visit_all_prefixes sim.newClient sim.exampleFlags sim.client (sim.world [])
      rfl sim_wellFormedAnswers).2.2.2.2.2.1⟩

/-- Counterexample to C7 as stated: `add --domains=foo,bar --ip=10.0.0.1` with
a provider whose lookup succeeds with a response that has no body. The call
for `foo` panics in `checkRecordExists`, `runAdd` does not return, and `bar`
is never handled: one lookup is sent, none for `bar`. -/
theorem C7_counterexample_response_without_body :
    cmd.createClient sim.newBodilessClient sim.exampleFlags = Except.ok sim.bodilessClient ∧
    cmd.runAdd sim.newBodilessClient sim.exampleFlags (sim.world []) =
      (Ret.panic,
       { remote := (sim.world []).remote,
         trace := [Event.describe (lookupRequest sim.bodilessClient (str "foo") (str "A"))] }) := by
  refine ⟨rfl, ?_⟩
  decide

/-! ## The base domain shown by `list` -/

theorem createClient_baseDomain
    (sdkNewClient : openapi.Config → Except GoString (alidns.Client σ))
    (flags : cmd.Flags) (client : dns.Client σ)
    (hc : cmd.createClient sdkNewClient flags = Except.ok client) :
    client.baseDomain = if flags.baseDomain = [] then str "alaudatech.net" else flags.baseDomain := by
  unfold cmd.createClient dns.NewClient at hc
  simp only [] at hc
  split at hc
  · cases hc
  · injection hc with hc
    subst hc
    simp only [dns.Config.withDefaults]
    by_cases hbd : flags.baseDomain = [] <;> simp [hbd]

/-- With a non-empty `--base-domain` the name `runList` shows for a record is
the record's prefix, a dot and the base domain the client queries. -/
theorem listFullDomain_nonempty_flag
    (sdkNewClient : openapi.Config → Except GoString (alidns.Client σ))
    (flags : cmd.Flags) (client : dns.Client σ) (record : dns.DomainRecord)
    (hc : cmd.createClient sdkNewClient flags = Except.ok client)
    (hne : flags.baseDomain ≠ []) :
    cmd.listFullDomain flags record = record.RR ++ str "." ++ client.baseDomain := by
  rw [createClient_baseDomain sdkNewClient flags client hc, if_neg hne]
  rfl

set_option maxRecDepth 100000 in
/-- C8 at a failing input: `list --base-domain=""` on a zone holding one
record `foo`. The client falls back to the default base domain and queries
`alaudatech.net`, but the header and the row are built from the flag value:
the row shows `foo.` and not `foo.alaudatech.net`. -/
theorem C8_list_row_shows_flag_value :
    cmd.runList sim.newClient sim.emptyBaseFlags (sim.world [sim.record "1" "foo" "A" "10.0.0.1"]) =
      (Ret.value none,
       { remote := { records := [sim.record "1" "foo" "A" "10.0.0.1"], nextId := 1 },
         trace :=
          [Event.describe (listRequest sim.client),
           Event.stdout (str "DNS Records under :\n"),
           Event.stdout (str "Domain                                   Type       Value                Status\n"),
           Event.stdout (str
             "------------------------------------------------------------------------------------\n"),
           Event.stdout (str "foo.                                     A          10.0.0.1             ENABLE\n"),
           Event.stdout (str "\nTotal: 1 record(s)\n")] }) ∧
    (listRequest sim.client).DomainName = some (str "alaudatech.net") ∧
    Event.stdout (str "foo.alaudatech.net                       A          10.0.0.1             ENABLE\n") ∉
      (cmd.runList sim.newClient sim.emptyBaseFlags
        (sim.world [sim.record "1" "foo" "A" "10.0.0.1"])).2.trace := by
  decide

/-! ## Tool domain names -/

theorem replaceAllLoop_single (s : GoString) (o : Fin 256) (new : GoString) (fuel : Nat) :
    ∀ (i : Nat) (result : GoString), i ≤ s.length → s.length - i ≤ fuel →
      dns.replaceAllLoop s [o] new fuel i result =
        some (result ++ (s.drop i).flatMap (rewriteByte o new)) := by
  induction fuel with
  | zero =>
    intro i result hi hf
    have : ¬ i < s.length := by omega
    have hd : s.drop i = [] := List.drop_eq_nil_of_le (by omega)
    simp [dns.replaceAllLoop, this, hd]
  | succ fuel ih =>
    intro i result hi hf
    unfold dns.replaceAllLoop
    by_cases h : i < s.length
    · have hd : s.drop i = s[i] :: s.drop (i + 1) := List.drop_eq_getElem_cons h
      simp only [h, dite_true, List.length_singleton]
      by_cases ho : s[i] = o
      · have hc : i + 1 ≤ s.length ∧ List.take 1 (List.drop i s) = [o] := by
          refine ⟨by omega, ?_⟩
          rw [hd]; simp [ho]
        rw [if_pos hc, ih (i + 1) _ (by omega) (by omega), hd]
        simp only [List.flatMap_cons, rewriteByte, ho, if_true, List.append_assoc]
      · have hc : ¬ (i + 1 ≤ s.length ∧ List.take 1 (List.drop i s) = [o]) := by
          rintro ⟨_, h1⟩
          rw [hd] at h1
          simp only [List.take_succ_cons, List.take_zero, List.cons.injEq, and_true] at h1
          exact ho h1
        rw [if_neg hc, ih (i + 1) _ (by omega) (by omega), hd]
        simp only [List.flatMap_cons, rewriteByte, ho, if_false, List.append_assoc,
          List.get_eq_getElem]
    · have hd : s.drop i = [] := List.drop_eq_nil_of_le (by omega)
      simp [h, hd]

theorem replaceAll_single (fuel : Nat) (s : GoString) (o : Fin 256) (new : GoString)
    (hf : s.length ≤ fuel) :
    dns.replaceAll fuel s [o] new = some (s.flatMap (rewriteByte o new)) := by
  unfold dns.replaceAll
  rw [replaceAllLoop_single s o new fuel 0 [] (by omega) (by omega)]
  simp

theorem encodeRune_byte (b x : Fin 256) (hx : x ∈ encodeRune b.val) :
    (b.val < 128 ∧ x = b) ∨ 128 ≤ x.val := by
  unfold encodeRune at hx
  by_cases h1 : b.val < 0x80
  · left
    simp only [h1, if_true, List.mem_singleton] at hx
    refine ⟨h1, ?_⟩
    rw [hx]
    apply Fin.ext
    simp [byte, Fin.ofNat]
  · right
    have h2 : b.val < 0x800 := by omega
    simp only [h1, if_false, h2, if_true, List.mem_cons, List.mem_singleton,
      List.not_mem_nil, or_false] at hx
    rcases hx with hx | hx
    · rw [hx]
      simp only [byte, Fin.ofNat]
      show 128 ≤ (192 + b.val / 64) % 256
      omega
    · rw [hx]
      simp only [byte, Fin.ofNat]
      show 128 ≤ (128 + b.val % 64) % 256
      omega

theorem encodeRune_length (b : Fin 256) : (encodeRune b.val).length ≤ 2 := by
  unfold encodeRune
  by_cases h1 : b.val < 0x80
  · simp [h1]
  · have h2 : b.val < 0x800 := by omega
    simp [h1, h2]

theorem flatMap_length_le (f : Fin 256 → GoString) (s : GoString)
    (hf : ∀ b, (f b).length ≤ 2) : (s.flatMap f).length ≤ 2 * s.length := by
  induction s with
  | nil => simp
  | cons a l ih =>
    have := hf a
    simp only [List.flatMap_cons, List.length_append, List.length_cons]
    omega

theorem flatMap_ascii (o : Fin 256) (s : GoString) (hs : ∀ b ∈ s, b.val < 128) :
    s.flatMap (rewriteByte o [45]) = s.map (fun b => if b = o then 45 else b) := by
  induction s with
  | nil => rfl
  | cons a l ih =>
    have ha : a.val < 128 := hs a (by simp)
    have he : encodeRune a.val = [a] := by
      unfold encodeRune
      simp only [show a.val < 0x80 from ha, if_true]
      congr 1
      apply Fin.ext
      simp [byte, Fin.ofNat]
    rw [List.flatMap_cons, List.map_cons, ih (fun b hb => hs b (by simp [hb]))]
    by_cases hao : a = o <;> simp [rewriteByte, hao, he]

/-- `GenerateToolDomains` is total once each loop may make as many passes as
twice the length of the text: it returns six names `name-tool` in the order
of `tools`, `name` holds neither `.` nor `:`, and for a text of ASCII bytes
(every valid IP text is one) `name` is the text with each `:` and each `.`
replaced by `-`. -/
theorem GenerateToolDomains_spec (fuel : Nat) (ip : GoString) (hf : 2 * ip.length ≤ fuel) :
    ∃ name, dns.GenerateToolDomains fuel ip =
        some [name ++ str "-" ++ str "jenkins", name ++ str "-" ++ str "gitlab",
          name ++ str "-" ++ str "sonar", name ++ str "-" ++ str "harbor",
          name ++ str "-" ++ str "katanomi", name ++ str "-" ++ str "nexus"] ∧
      (46 : Fin 256) ∉ name ∧ (58 : Fin 256) ∉ name ∧
      ((∀ b ∈ ip, b.val < 128) → name = dashed ip) := by
  have hcolon : str ":" = [58] := by decide
  have hdot : str "." = [46] := by decide
  have hdash : str "-" = [45] := by decide
  have hlen1 : (ip.flatMap (rewriteByte 58 [45])).length ≤ 2 * ip.length := by
    apply flatMap_length_le
    intro b
    unfold rewriteByte
    split
    · simp
    · exact encodeRune_length b
  refine ⟨(ip.flatMap (rewriteByte 58 [45])).flatMap (rewriteByte 46 [45]), ?_, ?_, ?_, ?_⟩
  · unfold dns.GenerateToolDomains
    rw [hcolon, hdot, hdash, replaceAll_single fuel ip 58 [45] (by omega)]
    simp only []
    rw [replaceAll_single fuel _ 46 [45] (by omega)]
    rfl
  · intro hmem
    rw [List.mem_flatMap] at hmem
    obtain ⟨b, _, hb⟩ := hmem
    unfold rewriteByte at hb
    split at hb
    · exact absurd hb (by decide)
    · rename_i hne
      rcases encodeRune_byte b 46 hb with ⟨_, h46⟩ | h128
      · exact hne h46.symm
      · exact absurd h128 (by decide)
  · intro hmem
    rw [List.mem_flatMap] at hmem
    obtain ⟨b, hb1, hb⟩ := hmem
    rw [List.mem_flatMap] at hb1
    obtain ⟨a, _, ha⟩ := hb1
    have hb58 : b ≠ 58 := by
      unfold rewriteByte at ha
      split at ha
      · rw [List.mem_singleton] at ha
        rw [ha]; decide
      · rename_i hne
        rcases encodeRune_byte a b ha with ⟨_, hab⟩ | h128
        · rw [hab]; exact hne
        · intro h58
          rw [h58] at h128
          exact absurd h128 (by decide)
    unfold rewriteByte at hb
    split at hb
    · exact absurd hb (by decide)
    · rcases encodeRune_byte b 58 hb with ⟨_, h58⟩ | h128
      · exact hb58 h58.symm
      · exact absurd h128 (by decide)
  · intro hascii
    rw [flatMap_ascii 58 ip hascii]
    rw [flatMap_ascii 46]
    · unfold dashed
      rw [List.map_map]
      apply List.map_congr_left
      intro b _
      by_cases h58 : b = 58
      · simp [h58]
      · by_cases h46 : b = 46 <;> simp [h58, h46]
    · intro b hb
      rw [List.mem_map] at hb
      obtain ⟨a, ha, rfl⟩ := hb
      have := hascii a ha
      split
      · decide
      · exact this

/-- C10 at a failing input: the two bytes `C3 A9` (the UTF-8 text `é`). There
is no `:` and no `.` to replace, so the name the claim describes is the text
itself followed by `-` and the tool; `replaceAll` instead rewrites each byte
above `0x7F` through `string(s[i])` into two bytes, once per pass, and every
returned name starts with the eight bytes `C3 83 C2 83 C3 82 C2 A9`. -/
theorem C10_bytes_above_ascii_rewritten :
    dashed [0xC3, 0xA9] = [0xC3, 0xA9] ∧
    dns.GenerateToolDomains 4 [0xC3, 0xA9] =
      some (dns.tools.map (fun tool =>
        [0xC3, 0x83, 0xC2, 0x83, 0xC3, 0x82, 0xC2, 0xA9] ++ str "-" ++ tool)) ∧
    dns.GenerateToolDomains 4 [0xC3, 0xA9] ≠
      some (dns.tools.map (fun tool => dashed [0xC3, 0xA9] ++ str "-" ++ tool)) := by
  decide

end Dnscli
